import Mathlib

/-!
# write_fluffy.c : the fluffy declaration writer of cparser

A shallow embedding of `src/write_fluffy.c`.

Conventions of the embedding.

* The two streams the C code writes to (`out`, which is `stdout`, and `stderr`)
  are the record `streams`; every C function `void f(args)` becomes
  `f args : streams → status`, the streams on entry being passed explicitly and
  the result saying how the call ended and what the streams hold at that
  point.
* `panic(msg)` ends the run: `status.panic msg s` keeps the streams `s` as they
  are when `panic` is called.  `status.fault s` is a run that leaves defined
  behaviour with the streams at `s`: a NULL pointer is dereferenced, or a
  union is read through a member it does not hold.
* A `type_t *` is a tree: pointee, parameter and result edges are structural.
  Every node carries the address it is stored at (`addr`), and the pointer
  comparison `declaration->type == type` of `find_typedef` is the comparison
  of these addresses.  The pointer from a struct/union/enum type to its
  defining declaration is an address into `machine.mem`, so an aggregate may
  have members whose types mention the aggregate itself.
* A `declaration_t *` is `declaration_t`: `NULL` or a node with its `next`
  chain; `function_parameter_t` likewise.
* The headers `ast_t.h`, `type_t.h`, `type.h` and `adt/error.h` are not among
  the sources.  Enumerations list the enumerators `write_fluffy.c` names and
  one constructor `other n` for every remaining value; `is_type_integer` and
  the `%Lf` conversion of `printf` are fields of `machine`.
-/

namespace Fluffy

/-! ## Data model -/

/-- The atomic kinds named by `get_atomic_type_string`; `other n` is any
    further enumerator of `atomic_type_type_t`. -/
inductive atomic_type_type_t
  | ATOMIC_TYPE_VOID
  | ATOMIC_TYPE_CHAR
  | ATOMIC_TYPE_SCHAR
  | ATOMIC_TYPE_UCHAR
  | ATOMIC_TYPE_SHORT
  | ATOMIC_TYPE_USHORT
  | ATOMIC_TYPE_INT
  | ATOMIC_TYPE_UINT
  | ATOMIC_TYPE_LONG
  | ATOMIC_TYPE_ULONG
  | ATOMIC_TYPE_LONGLONG
  | ATOMIC_TYPE_ULONGLONG
  | ATOMIC_TYPE_FLOAT
  | ATOMIC_TYPE_DOUBLE
  | ATOMIC_TYPE_LONG_DOUBLE
  | ATOMIC_TYPE_BOOL
  | other (n : Nat)
  deriving DecidableEq, Repr

/-- An interned name (`symbol_t`); only its `string` is read. -/
structure symbol_t where
  string : String
  deriving DecidableEq, Repr

mutual
/-- A `type_t *`: the address of the node and the node itself.
    `compound_struct`, `compound_union` and `enum` hold the address of their
    defining declaration; `other kind` is a node of any kind that `write_type`
    does not name. -/
inductive type_t
  | atomic (addr : Nat) (atype : atomic_type_type_t)
  | pointer (addr : Nat) (points_to : type_t)
  | compound_struct (addr : Nat) (declaration : Nat)
  | compound_union (addr : Nat) (declaration : Nat)
  | enum (addr : Nat) (declaration : Nat)
  | function (addr : Nat) (parameters : function_parameter_t) (variadic : Bool)
      (result_type : type_t)
  | invalid (addr : Nat)
  | other (addr : Nat) (kind : Nat)
/-- A `function_parameter_t *`: `NULL` or a parameter and its `next`. -/
inductive function_parameter_t
  | NULL
  | node (type : type_t) (symbol : Option symbol_t) (next : function_parameter_t)
end

/-- The address a `type_t *` holds. -/
def type_t.addr : type_t → Nat
  | .atomic a _ => a
  | .pointer a _ => a
  | .compound_struct a _ => a
  | .compound_union a _ => a
  | .enum a _ => a
  | .function a _ _ _ => a
  | .invalid a => a
  | .other a _ => a

/-- The operand of a `%Lf` conversion. -/
structure long_double where
  bits : Nat
  deriving DecidableEq, Repr

/-- The unary operators named by `write_unary_expression`. -/
inductive unary_expression_type_t
  | UNEXPR_NEGATE
  | UNEXPR_NOT
  | other (n : Nat)
  deriving DecidableEq, Repr

/-- An `expression_t *`.  A constant holds the union `v` as its two readings
    `int_value` (a `long long`) and `float_value` (a `long double`).
    `binary` and `other` are the expression kinds `write_expression` does not
    name. -/
inductive expression_t
  | const (datatype : type_t) (int_value : Int) (float_value : long_double)
  | unary (type : unary_expression_type_t) (value : expression_t)
  | binary (type : Nat) (left : expression_t) (right : expression_t)
  | other (kind : Nat)

/-- The storage classes named by `write_fluffy.c`. -/
inductive storage_class_t
  | STORAGE_CLASS_TYPEDEF
  | STORAGE_CLASS_ENUM_ENTRY
  | other (n : Nat)
  deriving DecidableEq, Repr

/-- The one namespace named by `write_fluffy.c`, and the others. -/
inductive namespace_t
  | NAMESPACE_NORMAL
  | other (n : Nat)
  deriving DecidableEq, Repr

/-- The union `init` of a declaration: three pointers sharing one word.
    `NULL` is the null word; otherwise the word points to an initializer, to
    the value of an enum entry or to a function body. -/
inductive init_t
  | NULL
  | initializer (at_ : Nat)
  | enum_value (e : expression_t)
  | statement (at_ : Nat)

/-- A `declaration_t *`: `NULL` or a declaration with the head of its nested
    context (`context.declarations`) and its `next`. -/
inductive declaration_t
  | NULL
  | node (symbol : Option symbol_t) (type : type_t)
      (storage_class : storage_class_t) (namespc : namespace_t) (init : init_t)
      (context_declarations : declaration_t) (next : declaration_t)

/-- A `context_t`: the head of a declaration chain. -/
structure context_t where
  declarations : declaration_t

/-- A `translation_unit_t`. -/
structure translation_unit_t where
  context : context_t

/-- What `write_fluffy.c` takes from outside: the memory holding the defining
    declarations of struct, union and enum types, `is_type_integer` of
    `type.h`, and the `%Lf` conversion of `printf`. -/
structure machine where
  mem : Nat → declaration_t
  is_type_integer : type_t → Bool
  printf_Lf : long_double → String

/-- The static variable `global_context` together with the machine. -/
structure globals extends machine where
  global_context : context_t

/-! ## Streams and the outcome of a call -/

/-- The text written so far to `out` and to `stderr`. -/
structure streams where
  out : String
  err : String
  deriving DecidableEq, Repr

/-- How a call ended, and the streams at that point. -/
inductive status
  | returned (s : streams)
  | panic (msg : String) (s : streams)
  | fault (s : streams)
  deriving DecidableEq, Repr

/-- Sequencing: the statements after a call run only when the call
    returned. -/
def status.andThen (r : status) (k : streams → status) : status :=
  match r with
  | .returned s => k s
  | .panic msg s => .panic msg s
  | .fault s => .fault s

/-- The streams a call ended with. -/
def status.final : status → streams
  | .returned s => s
  | .panic _ s => s
  | .fault s => s

/-- The call `fputs(str, out)`, and `fprintf(out, ...)` once its text is formed. -/
def fputs (str : String) (s : streams) : streams :=
  { s with out := s.out ++ str }

/-- The call `fputc(c, out)`. -/
def fputc (c : Char) (s : streams) : streams :=
  { s with out := s.out ++ String.singleton c }

/-- The call `fprintf(stderr, ...)` once its text is formed. -/
def fputs_stderr (str : String) (s : streams) : streams :=
  { s with err := s.err ++ str }

/-- The `%lld` conversion: signed decimal. -/
def printf_lld (i : Int) : String :=
  match i with
  | Int.ofNat n => Nat.repr n
  | Int.negSucc n => "-" ++ Nat.repr (n + 1)

/-! ## The functions of write_fluffy.c -/

/-- The function `get_atomic_type_string`; `.error msg` is `panic(msg)`. -/
def get_atomic_type_string : atomic_type_type_t → Except String String
  | .ATOMIC_TYPE_VOID => .ok "void"
  | .ATOMIC_TYPE_CHAR => .ok "byte"
  | .ATOMIC_TYPE_SCHAR => .ok "byte"
  | .ATOMIC_TYPE_UCHAR => .ok "unsigned byte"
  | .ATOMIC_TYPE_SHORT => .ok "short"
  | .ATOMIC_TYPE_USHORT => .ok "unsigned short"
  | .ATOMIC_TYPE_INT => .ok "int"
  | .ATOMIC_TYPE_UINT => .ok "unsigned int"
  | .ATOMIC_TYPE_LONG => .ok "int"
  | .ATOMIC_TYPE_ULONG => .ok "unsigned int"
  | .ATOMIC_TYPE_LONGLONG => .ok "long"
  | .ATOMIC_TYPE_ULONGLONG => .ok "unsigned long"
  | .ATOMIC_TYPE_FLOAT => .ok "float"
  | .ATOMIC_TYPE_DOUBLE => .ok "double"
  | .ATOMIC_TYPE_LONG_DOUBLE => .ok "double"
  | .ATOMIC_TYPE_BOOL => .ok "bool"
  | .other _ => .error "unsupported atomic type"

/-- The function `write_atomic_type`, given `type->v.atomic_type.atype`. -/
def write_atomic_type (atype : atomic_type_type_t) (s : streams) : status :=
  match get_atomic_type_string atype with
  | .ok str => .returned (fputs str s)
  | .error msg => .panic msg s

/-- The function `write_pointer_type`, given `write_type(type->v.pointer_type.points_to)`. -/
def write_pointer_type (write_type_points_to : streams → status) (s : streams) :
    status :=
  (write_type_points_to s).andThen fun s =>
  .returned (fputc '*' s)

/-- The loop of `find_typedef`, started at `declaration`; `type` is the
    address compared with. -/
def find_typedef_from (type : Nat) : declaration_t → declaration_t
  | .NULL => .NULL
  | .node symbol ty storage_class namespc init context_declarations next =>
    if ¬ (storage_class = .STORAGE_CLASS_TYPEDEF) then
      find_typedef_from type next
    else if ty.addr = type then
      .node symbol ty storage_class namespc init context_declarations next
    else
      find_typedef_from type next

/-- The function `find_typedef`. -/
def find_typedef (global_context : context_t) (type : Nat) : declaration_t :=
  find_typedef_from type global_context.declarations

/-- The call `fprintf(out, "%s", symbol->string)` for a `symbol` that may be NULL. -/
def fputs_symbol_string (symbol : Option symbol_t) (s : streams) : status :=
  match symbol with
  | some sym => .returned (fputs sym.string s)
  | none => .fault s

/-- The function `write_compound_type`, given the address `type` and
    `type->v.compound_type.declaration`. -/
def write_compound_type (g : globals) (type : Nat) (declaration : Nat)
    (s : streams) : status :=
  match find_typedef g.global_context type with
  | .node symbol _ _ _ _ _ _ => fputs_symbol_string symbol s
  | .NULL =>
    match g.mem declaration with
    | .NULL => .fault s
    | .node (some symbol) _ _ _ _ _ _ => .returned (fputs symbol.string s)
    | .node none _ _ _ _ _ _ =>
      .returned (fputs "/* TODO anonymous struct */byte" s)

/-- The function `write_enum_type`, given the address `type` and
    `type->v.enum_type.declaration`. -/
def write_enum_type (g : globals) (type : Nat) (declaration : Nat)
    (s : streams) : status :=
  match find_typedef g.global_context type with
  | .node symbol _ _ _ _ _ _ => fputs_symbol_string symbol s
  | .NULL =>
    match g.mem declaration with
    | .NULL => .fault s
    | .node (some symbol) _ _ _ _ _ _ => .returned (fputs symbol.string s)
    | .node none _ _ _ _ _ _ =>
      .returned (fputs "/* TODO anonymous enum */byte" s)

/-- The function `write_function_type`, given its parameter loop and
    `write_type(type->v.function_type.result_type)`. -/
def write_function_type (write_parameters : streams → status)
    (write_type_result_type : streams → status) (s : streams) : status :=
  (write_parameters (fputs "(func(" s)).andThen fun s =>
  (write_type_result_type (fputs ") : " s)).andThen fun s =>
  .returned (fputs ")" s)

mutual
/-- The function `write_type`. -/
def write_type (g : globals) : type_t → streams → status
  | .atomic _ atype => write_atomic_type atype
  | .pointer _ points_to => write_pointer_type (write_type g points_to)
  | .compound_union addr declaration => write_compound_type g addr declaration
  | .compound_struct addr declaration => write_compound_type g addr declaration
  | .enum addr declaration => write_enum_type g addr declaration
  | .function _ parameters _ result_type =>
    write_function_type (write_function_type_parameters g parameters true)
      (write_type g result_type)
  | .invalid _ => fun s => .panic "invalid type found" s
  | .other _ _ => fun s => .returned (fputs "/* TODO type */" s)
/-- The `while` loop of `write_function_type`, at `parameter` with the
    flag `first`. -/
def write_function_type_parameters (g : globals) :
    function_parameter_t → Bool → streams → status
  | .NULL, _ => fun s => .returned s
  | .node type _ next, first => fun s =>
    (write_type g type (fputs "_ : " (if ¬ first then fputs ", " s else s))).andThen
      fun s => write_function_type_parameters g next false s
end

/-- The function `write_struct_entry`, given `declaration->symbol` and
    `declaration->type`. -/
def write_struct_entry (g : globals) (symbol : Option symbol_t) (type : type_t)
    (s : streams) : status :=
  match symbol with
  | none => .fault s
  | some sym =>
    (write_type g type (fputs ("\t" ++ sym.string ++ " : ") s)).andThen fun s =>
    .returned (fputs "\n" s)

/-- The `while` loop shared by `write_struct` and `write_union`. -/
def write_struct_entries (g : globals) : declaration_t → streams → status
  | .NULL => fun s => .returned s
  | .node symbol type _ _ _ _ next => fun s =>
    (write_struct_entry g symbol type s).andThen fun s =>
    write_struct_entries g next s

/-- The function `write_struct`, given `symbol` and `type->v.compound_type.declaration`. -/
def write_struct (g : globals) (symbol : Option symbol_t) (declaration : Nat)
    (s : streams) : status :=
  match symbol with
  | none => .fault s
  | some sym =>
    match g.mem declaration with
    | .NULL => .fault (fputs ("struct " ++ sym.string ++ ":\n") s)
    | .node _ _ _ _ _ context_declarations _ =>
      (write_struct_entries g context_declarations
        (fputs ("struct " ++ sym.string ++ ":\n") s)).andThen fun s =>
      .returned (fputs "\n" s)

/-- The function `write_union`, given `symbol` and `type->v.compound_type.declaration`. -/
def write_union (g : globals) (symbol : Option symbol_t) (declaration : Nat)
    (s : streams) : status :=
  match symbol with
  | none => .fault s
  | some sym =>
    match g.mem declaration with
    | .NULL => .fault (fputs ("union " ++ sym.string ++ ":\n") s)
    | .node _ _ _ _ _ context_declarations _ =>
      (write_struct_entries g context_declarations
        (fputs ("union " ++ sym.string ++ ":\n") s)).andThen fun s =>
      .returned (fputs "\n" s)

/-- The function `write_unary_expression`, given `expression->type` and
    `write_expression(expression->value)`. -/
def write_unary_expression (type : unary_expression_type_t)
    (write_expression_value : streams → status) (s : streams) : status :=
  match type with
  | .UNEXPR_NEGATE => write_expression_value (fputc '-' s)
  | .UNEXPR_NOT => write_expression_value (fputc '!' s)
  | .other _ => .panic "unimplemented unary expression found" s

/-- The function `write_expression`. -/
def write_expression (g : globals) : expression_t → streams → status
  | .const datatype int_value float_value => fun s =>
    if g.is_type_integer datatype then
      .returned (fputs (printf_lld int_value) s)
    else
      .returned (fputs (g.printf_Lf float_value) s)
  | .unary type value => write_unary_expression type (write_expression g value)
  | .binary _ _ _ => fun s => .panic "not implemented expression" s
  | .other _ => fun s => .panic "not implemented expression" s

/-- The `for` loop of `write_enum`, at `entry`. -/
def write_enum_entries (g : globals) : declaration_t → streams → status
  | .NULL => fun s => .returned s
  | .node symbol _ storage_class _ init _ next => fun s =>
    if storage_class = .STORAGE_CLASS_ENUM_ENTRY then
      match symbol with
      | none => .fault s
      | some sym =>
        (match init with
         | .NULL => .returned (fputs ("\t" ++ sym.string) s)
         | .enum_value e =>
           write_expression g e (fputs " <- " (fputs ("\t" ++ sym.string) s))
         | .initializer _ => .fault (fputs " <- " (fputs ("\t" ++ sym.string) s))
         | .statement _ => .fault (fputs " <- " (fputs ("\t" ++ sym.string) s))
         : status).andThen fun s =>
        write_enum_entries g next (fputc '\n' s)
    else
      .returned s

/-- The function `write_enum`, given `symbol` and `type->v.enum_type.declaration`. -/
def write_enum (g : globals) (symbol : Option symbol_t) (declaration : Nat)
    (s : streams) : status :=
  match symbol with
  | none => .fault s
  | some sym =>
    match g.mem declaration with
    | .NULL => .fault (fputs ("enum " ++ sym.string ++ ":\n") s)
    | .node _ _ _ _ _ _ next =>
      (write_enum_entries g next
        (fputs ("enum " ++ sym.string ++ ":\n") s)).andThen fun s =>
      .returned (fputs "\n" (fputs ("typealias " ++ sym.string ++ " <- int\n") s))

/-- The function `write_variable`, given `declaration->symbol` and `declaration->type`. -/
def write_variable (g : globals) (symbol : Option symbol_t) (type : type_t)
    (s : streams) : status :=
  match symbol with
  | none => .fault s
  | some sym =>
    (write_type g type (fputs ("var " ++ sym.string ++ " : ") s)).andThen fun s =>
    .returned (fputs "\n" s)

/-- The test `init.statement != NULL` on the word of the union. -/
def init_t.is_null : init_t → Bool
  | .NULL => true
  | _ => false

/-- The test `parameter == NULL`. -/
def declaration_t.is_null : declaration_t → Bool
  | .NULL => true
  | _ => false

/-- The `for` loop of `write_function`, at `parameter` with the flag
    `first`. -/
def write_function_parameters (g : globals) :
    declaration_t → Bool → streams → status
  | .NULL, _ => fun s => .returned s
  | .node symbol type _ _ _ _ next, first => fun s =>
    (write_type g type
      (match symbol with
       | some sym => fputs (sym.string ++ " : ") (if ¬ first then fputs ", " s else s)
       | none => fputs "_ : " (if ¬ first then fputs ", " s else s))).andThen
      fun s => write_function_parameters g next false s

/-- The tail of `write_function` from the test of the variadic flag on;
    `first` is the flag as the parameter loop left it. -/
def write_function_tail (g : globals) (function_type : type_t) (first : Bool)
    (s : streams) : status :=
  match function_type with
  | .function _ _ variadic result_type =>
    (match result_type with
     | .atomic _ .ATOMIC_TYPE_VOID =>
       .returned (fputs ")" (if variadic then
         fputs "..." (if ¬ first then fputs ", " s else s) else s))
     | _ =>
       write_type g result_type (fputs " : " (fputs ")" (if variadic then
         fputs "..." (if ¬ first then fputs ", " s else s) else s)))
     : status).andThen fun s =>
    .returned (fputc '\n' s)
  | _ => .fault s

/-- The function `write_function`, given the fields of `declaration`.  After the
    parameter loop `first` is still 1 exactly when the loop body never ran,
    that is when `declaration->context.declarations` is NULL. -/
def write_function (g : globals) (symbol : Option symbol_t) (type : type_t)
    (init : init_t) (context_declarations : declaration_t) (s : streams) :
    status :=
  match symbol with
  | none => .fault s
  | some sym =>
    (write_function_parameters g context_declarations true
      (fputs ("func extern " ++ sym.string ++ "(")
        (if ¬ init.is_null then
          fputs_stderr ("Warning: can't convert function bodies (at "
            ++ sym.string ++ ")\n") s
         else s))).andThen fun s =>
    write_function_tail g type context_declarations.is_null s

/-- The first loop of `write_fluffy_decls`: structs, unions and enums. -/
def write_fluffy_decls_types (g : globals) : declaration_t → streams → status
  | .NULL => fun s => .returned s
  | .node symbol type storage_class _ _ _ next => fun s =>
    if ¬ (storage_class = .STORAGE_CLASS_TYPEDEF) then
      write_fluffy_decls_types g next s
    else
      (match type with
       | .compound_struct _ declaration => write_struct g symbol declaration s
       | .compound_union _ declaration => write_union g symbol declaration s
       | .enum _ declaration => write_enum g symbol declaration s
       | _ => .returned s : status).andThen fun s =>
      write_fluffy_decls_types g next s

/-- The test `type->type == TYPE_FUNCTION`. -/
def type_t.is_function : type_t → Bool
  | .function _ _ _ _ => true
  | _ => false

/-- The second loop of `write_fluffy_decls`: global variables. -/
def write_fluffy_decls_variables (g : globals) :
    declaration_t → streams → status
  | .NULL => fun s => .returned s
  | .node symbol type storage_class namespc _ _ next => fun s =>
    if namespc ≠ .NAMESPACE_NORMAL then
      write_fluffy_decls_variables g next s
    else if storage_class = .STORAGE_CLASS_TYPEDEF
        ∨ storage_class = .STORAGE_CLASS_ENUM_ENTRY then
      write_fluffy_decls_variables g next s
    else if type.is_function then
      write_fluffy_decls_variables g next s
    else
      (write_variable g symbol type s).andThen fun s =>
      write_fluffy_decls_variables g next s

/-- The third loop of `write_fluffy_decls`: functions. -/
def write_fluffy_decls_functions (g : globals) :
    declaration_t → streams → status
  | .NULL => fun s => .returned s
  | .node symbol type storage_class namespc init context_declarations next =>
    fun s =>
    if namespc ≠ .NAMESPACE_NORMAL then
      write_fluffy_decls_functions g next s
    else if storage_class = .STORAGE_CLASS_TYPEDEF
        ∨ storage_class = .STORAGE_CLASS_ENUM_ENTRY then
      write_fluffy_decls_functions g next s
    else if ¬ type.is_function then
      write_fluffy_decls_functions g next s
    else
      (write_function g symbol type init context_declarations s).andThen fun s =>
      write_fluffy_decls_functions g next s

/-- The function `write_fluffy_decls`: `out` is `stdout`, `global_context` is set to the
    context of the unit, then the header line and the three loops. -/
def write_fluffy_decls (m : machine) (unit : translation_unit_t) (s : streams) :
    status :=
  (write_fluffy_decls_types { m with global_context := unit.context }
    unit.context.declarations
    (fputs "/* WARNING: Automatically generated file */\n" s)).andThen fun s =>
  (write_fluffy_decls_variables { m with global_context := unit.context }
    unit.context.declarations s).andThen fun s =>
  write_fluffy_decls_functions { m with global_context := unit.context }
    unit.context.declarations s

/-! ## Vocabulary of the statements -/

/-- The streams `s` with the streams `p` written before them. -/
def streams.shift (p s : streams) : streams :=
  ⟨p.out ++ s.out, p.err ++ s.err⟩

/-- The outcome `r` with the streams `p` written before its streams. -/
def status.shift (p : streams) : status → status
  | .returned s => .returned (p.shift s)
  | .panic msg s => .panic msg (p.shift s)
  | .fault s => .fault (p.shift s)

/-- Both streams empty. -/
def streams.empty : streams := ⟨"", ""⟩

/-- The text a call leaves on `out` when it is started on empty streams. -/
def text_of (W : streams → status) : String :=
  (W streams.empty).final.out

/-- The nodes of a declaration chain, in chain order. -/
def declaration_t.chain : declaration_t → List declaration_t
  | .NULL => []
  | .node symbol type storage_class namespc init context_declarations next =>
    .node symbol type storage_class namespc init context_declarations next
      :: next.chain

/-! ### The three regions -/

/-- The declarations the first loop of `write_fluffy_decls` writes a block
    for: typedefs of a struct, a union or an enum type. -/
def in_type_region : declaration_t → Bool
  | .node _ (.compound_struct _ _) .STORAGE_CLASS_TYPEDEF _ _ _ _ => true
  | .node _ (.compound_union _ _) .STORAGE_CLASS_TYPEDEF _ _ _ _ => true
  | .node _ (.enum _ _) .STORAGE_CLASS_TYPEDEF _ _ _ _ => true
  | _ => false

/-- The block written for one declaration of the type region. -/
def type_region_block (g : globals) : declaration_t → String
  | .node symbol (.compound_struct _ declaration) _ _ _ _ _ =>
    text_of (write_struct g symbol declaration)
  | .node symbol (.compound_union _ declaration) _ _ _ _ _ =>
    text_of (write_union g symbol declaration)
  | .node symbol (.enum _ declaration) _ _ _ _ _ =>
    text_of (write_enum g symbol declaration)
  | _ => ""

/-- The declarations that are neither outside the normal namespace, nor a
    typedef, nor an enum entry: those the second and third loop look at. -/
def is_normal_object : declaration_t → Bool
  | .node _ _ storage_class namespc _ _ _ =>
    decide (namespc = .NAMESPACE_NORMAL)
      && !decide (storage_class = .STORAGE_CLASS_TYPEDEF)
      && !decide (storage_class = .STORAGE_CLASS_ENUM_ENTRY)
  | .NULL => false

/-- The type of a declaration is a function type. -/
def has_function_type : declaration_t → Bool
  | .node _ type _ _ _ _ _ => type.is_function
  | .NULL => false

/-- The declarations the second loop writes a line for. -/
def in_variable_region (d : declaration_t) : Bool :=
  is_normal_object d && !has_function_type d

/-- The line written for one declaration of the variable region. -/
def variable_region_line (g : globals) : declaration_t → String
  | .node symbol type _ _ _ _ _ => text_of (write_variable g symbol type)
  | .NULL => ""

/-- The declarations the third loop writes a line for. -/
def in_function_region (d : declaration_t) : Bool :=
  is_normal_object d && has_function_type d

/-- The line written for one declaration of the function region. -/
def function_region_line (g : globals) : declaration_t → String
  | .node symbol type _ _ init context_declarations _ =>
    text_of (write_function g symbol type init context_declarations)
  | .NULL => ""

/-! ### A sample unit

```
typedef struct { int x; } Foo;
Foo v;
int f(int a, ...);
```
The struct type is stored at address 10 and its defining declaration at
address 100. -/

/-- The type `int`. -/
def sample_int : type_t := .atomic 1 .ATOMIC_TYPE_INT

/-- The anonymous struct type of the sample. -/
def sample_struct : type_t := .compound_struct 10 100

/-- The member `int x` of the sample struct. -/
def sample_member_x : declaration_t :=
  .node (some ⟨"x"⟩) sample_int (.other 0) .NAMESPACE_NORMAL .NULL .NULL .NULL

/-- The parameter `int a`. -/
def sample_parameter_a : declaration_t :=
  .node (some ⟨"a"⟩) sample_int (.other 0) .NAMESPACE_NORMAL .NULL .NULL .NULL

/-- The type of `int f(int a, ...)`. -/
def sample_f_type : type_t :=
  .function 20 (.node sample_int (some ⟨"a"⟩) .NULL) true sample_int

/-- The declaration `int f(int a, ...);`, last of the sample unit. -/
def sample_f : declaration_t :=
  .node (some ⟨"f"⟩) sample_f_type (.other 0) .NAMESPACE_NORMAL .NULL
    sample_parameter_a .NULL

/-- The declaration `Foo v;` and what follows it. -/
def sample_v : declaration_t :=
  .node (some ⟨"v"⟩) sample_struct (.other 0) .NAMESPACE_NORMAL .NULL .NULL
    sample_f

/-- The declaration `typedef struct {..} Foo;` and what follows it. -/
def sample_Foo : declaration_t :=
  .node (some ⟨"Foo"⟩) sample_struct .STORAGE_CLASS_TYPEDEF .NAMESPACE_NORMAL
    .NULL .NULL sample_v

/-- The sample unit. -/
def sample_unit : translation_unit_t := ⟨⟨sample_Foo⟩⟩

/-! The sample memory also holds, at address 200, the defining declaration of
```
typedef enum { A, B = 5, C } E;
```
followed in its chain by the entries `A`, `B`, `C` and by a declaration `z`
that is no enum entry; and at address 300 the defining declaration of
```
typedef enum { P, Q = 1 + 2 } Bad;
```
followed by the entries `P` and `Q`. -/

/-- An enum entry named `name` with the union `init` and the chain `next`. -/
def enum_entry (name : String) (init : init_t) (next : declaration_t) :
    declaration_t :=
  .node (some ⟨name⟩) (.atomic 1 .ATOMIC_TYPE_INT) .STORAGE_CLASS_ENUM_ENTRY
    .NAMESPACE_NORMAL init .NULL next

/-- The integer constant `i` of type `int`. -/
def int_const (i : Int) : expression_t :=
  .const (.atomic 1 .ATOMIC_TYPE_INT) i ⟨0⟩

/-- The entries `A`, `B = 5`, `C` and the declaration `z` after them. -/
def sample_entries : declaration_t :=
  enum_entry "A" .NULL
    (enum_entry "B" (.enum_value (int_const 5))
      (enum_entry "C" .NULL
        (.node (some ⟨"z"⟩) (.atomic 1 .ATOMIC_TYPE_INT) (.other 0)
          .NAMESPACE_NORMAL .NULL .NULL .NULL)))

/-- The entries `P`, `Q = 1 + 2`. -/
def sample_bad_entries : declaration_t :=
  enum_entry "P" .NULL
    (enum_entry "Q" (.enum_value (.binary 0 (int_const 1) (int_const 2))) .NULL)

/-! At address 400 the sample memory holds the defining declaration of the
self-referential
```
struct node { struct node *next; };
```
and at address 500 the first declaration of the unit
```
struct S { int x; };
struct S v;
```
in which `S` has a tag and no typedef. -/

/-- The type `struct node`. -/
def sample_node_type : type_t := .compound_struct 13 400

/-- The defining declaration of `struct node`, with its member `next` of
    type pointer to `struct node`. -/
def sample_node : declaration_t :=
  .node (some ⟨"node"⟩) sample_node_type (.other 0) (.other 1) .NULL
    (.node (some ⟨"next"⟩) (.pointer 14 sample_node_type) (.other 0)
      .NAMESPACE_NORMAL .NULL .NULL .NULL)
    .NULL

/-- The type `struct S`. -/
def sample_S_type : type_t := .compound_struct 15 500

/-- The declaration `struct S {..};`, outside the normal namespace, followed
    by the declaration `struct S v;`. -/
def sample_S : declaration_t :=
  .node (some ⟨"S"⟩) sample_S_type (.other 0) (.other 1) .NULL sample_member_x
    (.node (some ⟨"v"⟩) sample_S_type (.other 0) .NAMESPACE_NORMAL .NULL .NULL
      .NULL)

/-- The unit `struct S { int x; }; struct S v;`. -/
def sample_tag_unit : translation_unit_t := ⟨⟨sample_S⟩⟩

/-- The machine of the sample: address 100 holds the defining declaration of
    the anonymous struct, addresses 200 and 300 those of the two enums,
    address 400 that of `struct node` and address 500 that of `struct S`;
    `is_type_integer` holds of the atomic kinds other than void, float, double
    and long double. -/
def sample_machine : machine where
  mem := fun a =>
    if a = 100 then
      .node none sample_struct (.other 0) (.other 1) .NULL sample_member_x .NULL
    else if a = 200 then
      .node none (.enum 11 200) (.other 0) (.other 2) .NULL .NULL sample_entries
    else if a = 300 then
      .node none (.enum 12 300) (.other 0) (.other 2) .NULL .NULL sample_bad_entries
    else if a = 400 then sample_node
    else if a = 500 then sample_S
    else .NULL
  is_type_integer := fun t =>
    match t with
    | .atomic _ .ATOMIC_TYPE_VOID => false
    | .atomic _ .ATOMIC_TYPE_FLOAT => false
    | .atomic _ .ATOMIC_TYPE_DOUBLE => false
    | .atomic _ .ATOMIC_TYPE_LONG_DOUBLE => false
    | .atomic _ (.other _) => false
    | .atomic _ _ => true
    | _ => false
  printf_Lf := fun _ => "0.000000"

/-- The globals of the sample. -/
def sample_globals : globals := { sample_machine with global_context := ⟨sample_Foo⟩ }

/-! ### Names of aggregate types, pointers -/

/-- The declaration is a typedef whose type is the node stored at `addr`. -/
def is_typedef_of (addr : Nat) : declaration_t → Bool
  | .node _ type storage_class _ _ _ _ =>
    decide (storage_class = .STORAGE_CLASS_TYPEDEF) && decide (type.addr = addr)
  | .NULL => false

/-- The field `symbol` of a declaration. -/
def declaration_t.symbol : declaration_t → Option symbol_t
  | .node symbol _ _ _ _ _ _ => symbol
  | .NULL => none

/-- The field `type` of a declaration (of `NULL`: an invalid type). -/
def declaration_t.type : declaration_t → type_t
  | .node _ type _ _ _ _ _ => type
  | .NULL => .invalid 0

/-- The type is a struct, a union or an enum type. -/
def type_t.is_aggregate : type_t → Bool
  | .compound_struct _ _ => true
  | .compound_union _ _ => true
  | .enum _ _ => true
  | _ => false

/-- A declaration that stands alone: no storage class named by the file,
    normal namespace, no initializer, no nested context, no `next`. -/
def plain_declaration (symbol : Option symbol_t) (type : type_t) : declaration_t :=
  .node symbol type (.other 0) .NAMESPACE_NORMAL .NULL .NULL .NULL

/-- The type `T` under one pointer node per address of `addrs`, the first
    address being the outermost node. -/
def pointers_to (addrs : List Nat) (T : type_t) : type_t :=
  addrs.foldr type_t.pointer T

/-- The globals of the sample without the typedef `Foo`: the unit starts at
    `Foo v;`. -/
def sample_globals_no_typedef : globals :=
  { sample_machine with global_context := ⟨sample_v⟩ }

/-! ### Function declarations -/

/-- The call returns when started on empty streams. -/
def returns (W : streams → status) : Bool :=
  match W streams.empty with
  | .returned _ => true
  | _ => false

/-- The text of one parameter of a function declaration: its name, or `_`
    when it has none, then ` : ` and its rendered type. -/
def parameter_text (g : globals) : declaration_t → String
  | .node (some sym) type _ _ _ _ _ => sym.string ++ " : " ++ text_of (write_type g type)
  | .node none type _ _ _ _ _ => "_ : " ++ text_of (write_type g type)
  | .NULL => ""

/-- The line of a function declaration up to and including its closing
    parenthesis: the parameters joined by `, `, then `...` for a variadic
    function, after a `, ` when there is a parameter before it. -/
def function_head_text (g : globals) (f : symbol_t) (parameters : declaration_t)
    (variadic : Bool) : String :=
  "func extern " ++ f.string ++ "("
    ++ ", ".intercalate (parameters.chain.map (parameter_text g))
    ++ (if variadic then (if parameters.chain.isEmpty then "" else ", ") ++ "..."
        else "")
    ++ ")"

/-- The test `result_type->type == TYPE_ATOMIC &&
    result_type->v.atomic_type.atype == ATOMIC_TYPE_VOID`. -/
def is_atomic_void : type_t → Bool
  | .atomic _ .ATOMIC_TYPE_VOID => true
  | _ => false

/-- The type of `int f(int a, ...)` with the nodes stored at the given
    addresses. -/
def variadic_int_function_type (a a1 a2 : Nat) : type_t :=
  .function a (.node (.atomic a1 .ATOMIC_TYPE_INT) (some ⟨"a"⟩) .NULL) true
    (.atomic a2 .ATOMIC_TYPE_INT)

/-! ### Enum blocks and expressions -/

/-- The declaration is an enum entry. -/
def is_enum_entry : declaration_t → Bool
  | .node _ _ storage_class _ _ _ _ =>
    decide (storage_class = .STORAGE_CLASS_ENUM_ENTRY)
  | .NULL => false

/-- The entries of an enum whose defining declaration has `next` as its
    `next`: the enum entries that stand at the head of that chain, up to the
    first declaration that is none. -/
def enum_entries (next : declaration_t) : List declaration_t :=
  next.chain.takeWhile is_enum_entry

/-- The line of one enum entry: a tab, its name, ` <- ` and the rendered
    value when the entry has an initializer, and the end of the line. -/
def enum_entry_line (g : globals) : declaration_t → String
  | .node (some sym) _ _ _ .NULL _ _ => "\t" ++ sym.string ++ "\n"
  | .node (some sym) _ _ _ (.enum_value e) _ _ =>
    "\t" ++ sym.string ++ " <- " ++ text_of (write_expression g e) ++ "\n"
  | _ => ""

/-- The entry has a name, and its initializer is absent or an expression
    that `write_expression` can render. -/
def enum_entry_ok (g : globals) : declaration_t → Bool
  | .node (some _) _ _ _ .NULL _ _ => true
  | .node (some _) _ _ _ (.enum_value e) _ _ => returns (write_expression g e)
  | _ => false

/-- The expression is neither a constant nor a unary negate or not. -/
def is_unsupported_expression : expression_t → Bool
  | .const _ _ _ => false
  | .unary .UNEXPR_NEGATE _ => false
  | .unary .UNEXPR_NOT _ => false
  | _ => true

/-- The expression `e` under one unary node per operator of `ops`, the first
    operator being the outermost node. -/
def unary_chain (ops : List unary_expression_type_t) (e : expression_t) :
    expression_t :=
  ops.foldr expression_t.unary e

/-- The character `write_unary_expression` writes for an operator. -/
def unary_operator_text : unary_expression_type_t → String
  | .UNEXPR_NEGATE => "-"
  | .UNEXPR_NOT => "!"
  | .other _ => ""

/-! ### Struct and union blocks, nested function types -/

/-- The member has a name and a type that `write_type` can render. -/
def member_ok (g : globals) : declaration_t → Bool
  | .node (some _) type _ _ _ _ _ => returns (write_type g type)
  | _ => false

/-- The line of one member of a struct or union: a tab, its name, ` : `, its
    rendered type, and the end of the line. -/
def member_line (g : globals) : declaration_t → String
  | .node (some sym) type _ _ _ _ _ =>
    "\t" ++ sym.string ++ " : " ++ text_of (write_type g type) ++ "\n"
  | _ => ""

/-- The types of a parameter list of a function type, in list order. -/
def function_parameter_t.types : function_parameter_t → List type_t
  | .NULL => []
  | .node type _ next => type :: next.types

/-! ### Lines and blocks of the regions -/

/-- The line of a variable named `symbol` of type `type`: `var`, the name,
    ` : `, the rendered type, and the end of the line. -/
def variable_line (g : globals) (symbol : Option symbol_t) (type : type_t) :
    String :=
  "var " ++ (match symbol with
    | some sym => sym.string
    | none => "") ++ " : " ++ text_of (write_type g type) ++ "\n"

/-! ### Invalid types -/

mutual
/-- An Invalid node is reached from the type through pointee, parameter and
    result edges. -/
def type_t.reaches_invalid : type_t → Bool
  | .invalid _ => true
  | .pointer _ points_to => points_to.reaches_invalid
  | .function _ parameters _ result_type =>
    parameters.reaches_invalid || result_type.reaches_invalid
  | _ => false
/-- An Invalid node is reached from one of the parameter types. -/
def function_parameter_t.reaches_invalid : function_parameter_t → Bool
  | .NULL => false
  | .node type _ next => type.reaches_invalid || next.reaches_invalid
end

/-- The atomic kind is one of the sixteen kinds the table of
    `get_atomic_type_string` lists. -/
def atomic_type_type_t.is_listed : atomic_type_type_t → Bool
  | .other _ => false
  | _ => true

/-- The struct, union or enum type stored at `addr`, with its defining
    declaration at `declaration`, is well formed in memory: the defining
    declaration is there (the pointer to it is not NULL), and every typedef of
    the top-level chain whose type is the node at `addr` has a symbol. -/
def aggregate_well_formed (g : globals) (addr declaration : Nat) : Bool :=
  !(g.mem declaration).is_null
    && g.global_context.declarations.chain.all
        (fun d => !is_typedef_of addr d || d.symbol.isSome)

mutual
/-- Every atomic node reached from the type through pointee, parameter and
    result edges has a listed kind, and every struct, union and enum node
    reached is well formed in memory. -/
def type_t.in_scope (g : globals) : type_t → Bool
  | .atomic _ atype => atype.is_listed
  | .pointer _ points_to => points_to.in_scope g
  | .compound_struct addr declaration => aggregate_well_formed g addr declaration
  | .compound_union addr declaration => aggregate_well_formed g addr declaration
  | .enum addr declaration => aggregate_well_formed g addr declaration
  | .function _ parameters _ result_type =>
    parameters.in_scope g && result_type.in_scope g
  | .invalid _ => true
  | .other _ _ => true
/-- Every parameter type is in scope. -/
def function_parameter_t.in_scope (g : globals) : function_parameter_t → Bool
  | .NULL => true
  | .node type _ next => type.in_scope g && next.in_scope g
end

/-- The parameter types `int`, the anonymous struct aliased `Foo`, and
    `struct node` of the sample. -/
def sample_mixed_parameters : function_parameter_t :=
  .node sample_int none
    (.node sample_struct none (.node sample_node_type none .NULL))

/-- A function type of the sample whose result type is a pointer to an
    Invalid node. -/
def sample_invalid_function_type : type_t :=
  .function 50 sample_mixed_parameters false (.pointer 40 (.invalid 41))

/-- The same function type with result type `int`. -/
def sample_valid_function_type : type_t :=
  .function 51 sample_mixed_parameters false sample_int

/-- The sample unit `<invalid> *w;`: one variable whose type is a pointer to
    an Invalid node. -/
def sample_invalid_unit : translation_unit_t :=
  ⟨⟨.node (some ⟨"w"⟩) (.pointer 40 (.invalid 41)) (.other 0) .NAMESPACE_NORMAL
    .NULL .NULL .NULL⟩⟩

/-! ### The diagnostic stream -/

/-- The warning `write_function` writes to `stderr` for a declaration named
    `f` with a body. -/
def body_warning (f : symbol_t) : String :=
  "Warning: can't convert function bodies (at " ++ f.string ++ ")\n"

/-! ### Members of aggregates -/

/-- The declaration with its type, its union `init`, its nested context (the
    members) and its `next` taken away: only its symbol is kept. -/
def forget_members : declaration_t → declaration_t
  | .node symbol _ storage_class namespc _ _ _ =>
    .node symbol (.invalid 0) storage_class namespc .NULL .NULL .NULL
  | .NULL => .NULL

/-- The globals of the sample with every defining declaration in memory
    stripped of its members. -/
def sample_globals_no_members : globals :=
  { sample_globals with mem := fun a => forget_members (sample_globals.mem a) }

/-! ## Theorems -/

/-! ### Writing after a prefix

Every function of the file only appends to the streams: started on streams
that already hold `p`, it does what it does on the rest, after `p`. -/

theorem streams_shift_empty (s : streams) : s.shift streams.empty = s := by
  simp [streams.shift, streams.empty]

theorem fputs_shift (str : String) (p s : streams) :
    fputs str (p.shift s) = p.shift (fputs str s) := by
  simp [fputs, streams.shift, String.append_assoc]

theorem fputc_shift (c : Char) (p s : streams) :
    fputc c (p.shift s) = p.shift (fputc c s) := by
  simp [fputc, streams.shift, String.append_assoc]

theorem fputs_stderr_shift (str : String) (p s : streams) :
    fputs_stderr str (p.shift s) = p.shift (fputs_stderr str s) := by
  simp [fputs_stderr, streams.shift, String.append_assoc]

theorem andThen_shift (p : streams) (r : status) (k : streams → status)
    (hk : ∀ s, k (p.shift s) = (k s).shift p) :
    (r.shift p).andThen k = (r.andThen k).shift p := by
  cases r <;> simp [status.shift, status.andThen, hk]

theorem write_atomic_type_shift (atype : atomic_type_type_t) (p s : streams) :
    write_atomic_type atype (p.shift s) = (write_atomic_type atype s).shift p := by
  unfold write_atomic_type
  cases get_atomic_type_string atype <;> simp [status.shift, fputs_shift]

theorem fputs_symbol_string_shift (symbol : Option symbol_t) (p s : streams) :
    fputs_symbol_string symbol (p.shift s)
      = (fputs_symbol_string symbol s).shift p := by
  cases symbol <;> simp [fputs_symbol_string, status.shift, fputs_shift]

theorem write_compound_type_shift (g : globals) (type declaration : Nat)
    (p s : streams) :
    write_compound_type g type declaration (p.shift s)
      = (write_compound_type g type declaration s).shift p := by
  unfold write_compound_type
  split
  · exact fputs_symbol_string_shift _ p s
  · split <;> simp [status.shift, fputs_shift]

theorem write_enum_type_shift (g : globals) (type declaration : Nat)
    (p s : streams) :
    write_enum_type g type declaration (p.shift s)
      = (write_enum_type g type declaration s).shift p := by
  unfold write_enum_type
  split
  · exact fputs_symbol_string_shift _ p s
  · split <;> simp [status.shift, fputs_shift]

theorem ite_fputs_shift (c : Prop) [Decidable c] (str : String) (p s : streams) :
    (if c then fputs str (p.shift s) else p.shift s)
      = p.shift (if c then fputs str s else s) := by
  split <;> simp [fputs_shift]

mutual
theorem write_type_shift (g : globals) (t : type_t) (p s : streams) :
    write_type g t (p.shift s) = (write_type g t s).shift p := by
  cases t with
  | atomic a atype => simp [write_type, write_atomic_type_shift]
  | pointer a pt =>
    simp only [write_type, write_pointer_type]
    rw [write_type_shift g pt p s]
    exact andThen_shift p _ _ (fun s => by simp [status.shift, fputc_shift])
  | compound_struct a d => simp [write_type, write_compound_type_shift]
  | compound_union a d => simp [write_type, write_compound_type_shift]
  | enum a d => simp [write_type, write_enum_type_shift]
  | function a ps v r =>
    simp only [write_type, write_function_type, fputs_shift]
    rw [write_function_type_parameters_shift g ps true p]
    refine andThen_shift p _ _ (fun s => ?_)
    rw [fputs_shift, write_type_shift g r p]
    exact andThen_shift p _ _ (fun s => by simp [status.shift, fputs_shift])
  | invalid a => simp [write_type, status.shift]
  | other a k => simp [write_type, status.shift, fputs_shift]
theorem write_function_type_parameters_shift (g : globals)
    (ps : function_parameter_t) (first : Bool) (p s : streams) :
    write_function_type_parameters g ps first (p.shift s)
      = (write_function_type_parameters g ps first s).shift p := by
  cases ps with
  | NULL => simp [write_function_type_parameters, status.shift]
  | node t sym next =>
    simp only [write_function_type_parameters]
    rw [ite_fputs_shift, fputs_shift, write_type_shift g t p]
    exact andThen_shift p _ _
      (fun s => write_function_type_parameters_shift g next false p s)
end

theorem write_struct_entry_shift (g : globals) (symbol : Option symbol_t)
    (type : type_t) (p s : streams) :
    write_struct_entry g symbol type (p.shift s)
      = (write_struct_entry g symbol type s).shift p := by
  cases symbol with
  | none => simp [write_struct_entry, status.shift]
  | some sym =>
    simp only [write_struct_entry]
    rw [fputs_shift, write_type_shift]
    exact andThen_shift p _ _ (fun s => by simp [status.shift, fputs_shift])

theorem write_struct_entries_shift (g : globals) (d : declaration_t)
    (p s : streams) :
    write_struct_entries g d (p.shift s)
      = (write_struct_entries g d s).shift p := by
  induction d generalizing s with
  | NULL => simp [write_struct_entries, status.shift]
  | node symbol type sc ns init ctx next _ ih =>
    simp only [write_struct_entries]
    rw [write_struct_entry_shift]
    exact andThen_shift p _ _ (fun s => ih s)

theorem write_struct_shift (g : globals) (symbol : Option symbol_t)
    (declaration : Nat) (p s : streams) :
    write_struct g symbol declaration (p.shift s)
      = (write_struct g symbol declaration s).shift p := by
  unfold write_struct
  cases symbol with
  | none => simp [status.shift]
  | some sym =>
    simp only
    split
    · simp [status.shift, fputs_shift]
    · rw [fputs_shift, write_struct_entries_shift]
      exact andThen_shift p _ _ (fun s => by simp [status.shift, fputs_shift])

theorem write_union_shift (g : globals) (symbol : Option symbol_t)
    (declaration : Nat) (p s : streams) :
    write_union g symbol declaration (p.shift s)
      = (write_union g symbol declaration s).shift p := by
  unfold write_union
  cases symbol with
  | none => simp [status.shift]
  | some sym =>
    simp only
    split
    · simp [status.shift, fputs_shift]
    · rw [fputs_shift, write_struct_entries_shift]
      exact andThen_shift p _ _ (fun s => by simp [status.shift, fputs_shift])

theorem write_expression_shift (g : globals) (e : expression_t) (p s : streams) :
    write_expression g e (p.shift s) = (write_expression g e s).shift p := by
  induction e generalizing s with
  | const dt i f =>
    simp only [write_expression]
    split <;> simp [status.shift, fputs_shift]
  | unary ty v ih =>
    cases ty <;>
      simp [write_expression, write_unary_expression, fputc_shift, ih, status.shift]
  | binary ty l r _ _ => simp [write_expression, status.shift]
  | other k => simp [write_expression, status.shift]

theorem write_enum_entries_shift (g : globals) (d : declaration_t)
    (p s : streams) :
    write_enum_entries g d (p.shift s)
      = (write_enum_entries g d s).shift p := by
  induction d generalizing s with
  | NULL => simp [write_enum_entries, status.shift]
  | node symbol type sc ns init ctx next _ ih =>
    simp only [write_enum_entries]
    split
    · cases symbol with
      | none => simp [status.shift]
      | some sym =>
        simp only
        have hk : ∀ s, write_enum_entries g next (fputc (Char.ofNat 10) (p.shift s))
            = (write_enum_entries g next (fputc (Char.ofNat 10) s)).shift p := by
          intro s; rw [fputc_shift, ih]
        cases init with
        | NULL => simp only [fputs_shift]; exact andThen_shift p (.returned _) _ hk
        | initializer a => simp [fputs_shift, status.andThen, status.shift]
        | enum_value e =>
          simp only [fputs_shift]
          rw [write_expression_shift]
          exact andThen_shift p _ _ hk
        | statement a => simp [fputs_shift, status.andThen, status.shift]
    · simp [status.shift]

theorem write_enum_shift (g : globals) (symbol : Option symbol_t)
    (declaration : Nat) (p s : streams) :
    write_enum g symbol declaration (p.shift s)
      = (write_enum g symbol declaration s).shift p := by
  unfold write_enum
  cases symbol with
  | none => simp [status.shift]
  | some sym =>
    simp only
    split
    · simp [status.shift, fputs_shift]
    · rw [fputs_shift, write_enum_entries_shift]
      exact andThen_shift p _ _ (fun s => by simp [status.shift, fputs_shift])

theorem write_variable_shift (g : globals) (symbol : Option symbol_t)
    (type : type_t) (p s : streams) :
    write_variable g symbol type (p.shift s)
      = (write_variable g symbol type s).shift p := by
  cases symbol with
  | none => simp [write_variable, status.shift]
  | some sym =>
    simp only [write_variable]
    rw [fputs_shift, write_type_shift]
    exact andThen_shift p _ _ (fun s => by simp [status.shift, fputs_shift])

theorem write_function_parameters_shift (g : globals) (d : declaration_t)
    (first : Bool) (p s : streams) :
    write_function_parameters g d first (p.shift s)
      = (write_function_parameters g d first s).shift p := by
  induction d generalizing s first with
  | NULL => simp [write_function_parameters, status.shift]
  | node symbol type sc ns init ctx next _ ih =>
    simp only [write_function_parameters]
    cases symbol with
    | none =>
      simp only
      rw [ite_fputs_shift, fputs_shift, write_type_shift]
      exact andThen_shift p _ _ (fun s => ih false s)
    | some sym =>
      simp only
      rw [ite_fputs_shift, fputs_shift, write_type_shift]
      exact andThen_shift p _ _ (fun s => ih false s)

theorem write_function_tail_shift (g : globals) (function_type : type_t)
    (first : Bool) (p s : streams) :
    write_function_tail g function_type first (p.shift s)
      = (write_function_tail g function_type first s).shift p := by
  have hk : ∀ s, (fun s => status.returned (fputc (Char.ofNat 10) s)) (p.shift s)
      = ((fun s => status.returned (fputc (Char.ofNat 10) s)) s).shift p := by
    intro s; simp [status.shift, fputc_shift]
  cases function_type with
  | function a ps variadic result_type =>
    have hs : (if variadic = true then
          fputs "..." (if ¬ first = true then fputs ", " (p.shift s) else p.shift s)
        else p.shift s)
      = p.shift (if variadic = true then
          fputs "..." (if ¬ first = true then fputs ", " s else s) else s) := by
      cases variadic <;> cases first <;> simp [fputs_shift]
    simp only [write_function_tail]
    rw [hs]
    split
    · simp only [fputs_shift]
      exact andThen_shift p (.returned _) _ hk
    · simp only [fputs_shift]
      rw [write_type_shift]
      exact andThen_shift p _ _ hk
  | atomic a at_ => simp [write_function_tail, status.shift]
  | pointer a pt => simp [write_function_tail, status.shift]
  | compound_struct a d => simp [write_function_tail, status.shift]
  | compound_union a d => simp [write_function_tail, status.shift]
  | enum a d => simp [write_function_tail, status.shift]
  | invalid a => simp [write_function_tail, status.shift]
  | other a k => simp [write_function_tail, status.shift]

theorem write_function_shift (g : globals) (symbol : Option symbol_t)
    (type : type_t) (init : init_t) (context_declarations : declaration_t)
    (p s : streams) :
    write_function g symbol type init context_declarations (p.shift s)
      = (write_function g symbol type init context_declarations s).shift p := by
  cases symbol with
  | none => simp [write_function, status.shift]
  | some sym =>
    simp only [write_function]
    have hw : ∀ str,
        (if ¬ init.is_null = true then fputs_stderr str (p.shift s) else p.shift s)
        = p.shift (if ¬ init.is_null = true then fputs_stderr str s else s) := by
      intro str; split <;> simp [fputs_stderr_shift]
    rw [hw, fputs_shift, write_function_parameters_shift]
    exact andThen_shift p _ _ (fun s => write_function_tail_shift g _ _ p s)

theorem write_fluffy_decls_types_shift (g : globals) (d : declaration_t)
    (p s : streams) :
    write_fluffy_decls_types g d (p.shift s)
      = (write_fluffy_decls_types g d s).shift p := by
  induction d generalizing s with
  | NULL => simp [write_fluffy_decls_types, status.shift]
  | node symbol type sc ns init ctx next _ ih =>
    simp only [write_fluffy_decls_types]
    split
    · exact ih s
    · cases type with
      | compound_struct a decl =>
        simp only; rw [write_struct_shift]
        exact andThen_shift p _ _ (fun s => ih s)
      | compound_union a decl =>
        simp only; rw [write_union_shift]
        exact andThen_shift p _ _ (fun s => ih s)
      | enum a decl =>
        simp only; rw [write_enum_shift]
        exact andThen_shift p _ _ (fun s => ih s)
      | atomic a at_ => exact andThen_shift p (.returned _) _ (fun s => ih s)
      | pointer a pt => exact andThen_shift p (.returned _) _ (fun s => ih s)
      | function a ps v r => exact andThen_shift p (.returned _) _ (fun s => ih s)
      | invalid a => exact andThen_shift p (.returned _) _ (fun s => ih s)
      | other a k => exact andThen_shift p (.returned _) _ (fun s => ih s)

theorem write_fluffy_decls_variables_shift (g : globals) (d : declaration_t)
    (p s : streams) :
    write_fluffy_decls_variables g d (p.shift s)
      = (write_fluffy_decls_variables g d s).shift p := by
  induction d generalizing s with
  | NULL => simp [write_fluffy_decls_variables, status.shift]
  | node symbol type sc ns init ctx next _ ih =>
    simp only [write_fluffy_decls_variables]
    split
    · exact ih s
    · split
      · exact ih s
      · split
        · exact ih s
        · rw [write_variable_shift]
          exact andThen_shift p _ _ (fun s => ih s)

theorem write_fluffy_decls_functions_shift (g : globals) (d : declaration_t)
    (p s : streams) :
    write_fluffy_decls_functions g d (p.shift s)
      = (write_fluffy_decls_functions g d s).shift p := by
  induction d generalizing s with
  | NULL => simp [write_fluffy_decls_functions, status.shift]
  | node symbol type sc ns init ctx next _ ih =>
    simp only [write_fluffy_decls_functions]
    split
    · exact ih s
    · split
      · exact ih s
      · split
        · exact ih s
        · rw [write_function_shift]
          exact andThen_shift p _ _ (fun s => ih s)

/-- A call that writes after any prefix, once it has returned, has appended
    to `out` the text it writes on empty streams. -/
theorem returned_out_of_shift (W : streams → status)
    (hW : ∀ p s, W (p.shift s) = (W s).shift p) (s t : streams)
    (h : W s = .returned t) :
    W streams.empty = .returned ⟨text_of W, (W streams.empty).final.err⟩
      ∧ t.out = s.out ++ text_of W := by
  have h1 := hW s streams.empty
  rw [streams_shift_empty, h] at h1
  unfold text_of
  cases hr : W streams.empty with
  | returned u =>
    rw [hr] at h1
    simp only [status.shift, status.returned.injEq] at h1
    simp [status.final, h1, streams.shift]
  | panic msg u => rw [hr] at h1; simp [status.shift] at h1
  | fault u => rw [hr] at h1; simp [status.shift] at h1

/-- Sequencing returns exactly when both parts return. -/
theorem andThen_returned (r : status) (k : streams → status) (t : streams)
    (h : r.andThen k = .returned t) :
    ∃ u, r = .returned u ∧ k u = .returned t := by
  cases r with
  | returned u => exact ⟨u, rfl, h⟩
  | panic msg u => simp [status.andThen] at h
  | fault u => simp [status.andThen] at h

/-! ### C1: the three regions -/

theorem string_join_cons (a : String) (l : List String) :
    String.join (a :: l) = a ++ String.join l := by
  apply String.ext
  simp [String.data_join]

theorem write_fluffy_decls_types_out (g : globals) (d : declaration_t)
    (s t : streams) (h : write_fluffy_decls_types g d s = .returned t) :
    t.out = s.out
      ++ String.join ((d.chain.filter in_type_region).map (type_region_block g)) := by
  induction d generalizing s with
  | NULL =>
    simp only [write_fluffy_decls_types, status.returned.injEq] at h
    subst h
    simp [declaration_t.chain, String.join]
  | node symbol type sc ns init ctx next _ ih =>
    simp only [write_fluffy_decls_types] at h
    split at h
    · rename_i hsc
      rw [ih s h]
      have : in_type_region (.node symbol type sc ns init ctx next) = false := by
        unfold in_type_region
        split <;> simp_all
      simp [declaration_t.chain, this]
    · rename_i hsc
      simp only [Decidable.not_not] at hsc
      subst hsc
      obtain ⟨u, hu, hk⟩ := andThen_returned _ _ _ h
      rw [ih u hk]
      cases type with
      | compound_struct a decl =>
        simp only at hu
        have h2 := (returned_out_of_shift _ (write_struct_shift g symbol decl) s u hu).2
        simp [declaration_t.chain, in_type_region, type_region_block, h2,
          string_join_cons, String.append_assoc]
      | compound_union a decl =>
        simp only at hu
        have h2 := (returned_out_of_shift _ (write_union_shift g symbol decl) s u hu).2
        simp [declaration_t.chain, in_type_region, type_region_block, h2,
          string_join_cons, String.append_assoc]
      | enum a decl =>
        simp only at hu
        have h2 := (returned_out_of_shift _ (write_enum_shift g symbol decl) s u hu).2
        simp [declaration_t.chain, in_type_region, type_region_block, h2,
          string_join_cons, String.append_assoc]
      | atomic a at_ =>
        simp only [status.returned.injEq] at hu; subst hu
        simp [declaration_t.chain, in_type_region]
      | pointer a pt =>
        simp only [status.returned.injEq] at hu; subst hu
        simp [declaration_t.chain, in_type_region]
      | function a ps v r =>
        simp only [status.returned.injEq] at hu; subst hu
        simp [declaration_t.chain, in_type_region]
      | invalid a =>
        simp only [status.returned.injEq] at hu; subst hu
        simp [declaration_t.chain, in_type_region]
      | other a k =>
        simp only [status.returned.injEq] at hu; subst hu
        simp [declaration_t.chain, in_type_region]

theorem write_fluffy_decls_variables_out (g : globals) (d : declaration_t)
    (s t : streams) (h : write_fluffy_decls_variables g d s = .returned t) :
    t.out = s.out
      ++ String.join ((d.chain.filter in_variable_region).map
          (variable_region_line g)) := by
  induction d generalizing s with
  | NULL =>
    simp only [write_fluffy_decls_variables, status.returned.injEq] at h
    subst h
    simp [declaration_t.chain, String.join]
  | node symbol type sc ns init ctx next _ ih =>
    simp only [write_fluffy_decls_variables] at h
    split at h
    · rename_i hns
      rw [ih s h]
      simp [declaration_t.chain, in_variable_region, is_normal_object, hns]
    · rename_i hns
      split at h
      · rename_i hsc
        rw [ih s h]
        rcases hsc with hsc | hsc <;>
          simp [declaration_t.chain, in_variable_region, is_normal_object, hsc]
      · rename_i hsc
        split at h
        · rename_i hf
          rw [ih s h]
          simp [declaration_t.chain, in_variable_region, has_function_type, hf]
        · rename_i hf
          obtain ⟨u, hu, hk⟩ := andThen_returned _ _ _ h
          rw [ih u hk]
          have h2 := (returned_out_of_shift _ (write_variable_shift g symbol type)
            s u hu).2
          simp only [ne_eq, Decidable.not_not] at hns
          simp only [not_or] at hsc
          simp [declaration_t.chain, in_variable_region, is_normal_object,
            has_function_type, hns, hsc.1, hsc.2, hf, variable_region_line, h2,
            string_join_cons, String.append_assoc]

theorem write_fluffy_decls_functions_out (g : globals) (d : declaration_t)
    (s t : streams) (h : write_fluffy_decls_functions g d s = .returned t) :
    t.out = s.out
      ++ String.join ((d.chain.filter in_function_region).map
          (function_region_line g)) := by
  induction d generalizing s with
  | NULL =>
    simp only [write_fluffy_decls_functions, status.returned.injEq] at h
    subst h
    simp [declaration_t.chain, String.join]
  | node symbol type sc ns init ctx next _ ih =>
    simp only [write_fluffy_decls_functions] at h
    split at h
    · rename_i hns
      rw [ih s h]
      simp [declaration_t.chain, in_function_region, is_normal_object, hns]
    · rename_i hns
      split at h
      · rename_i hsc
        rw [ih s h]
        rcases hsc with hsc | hsc <;>
          simp [declaration_t.chain, in_function_region, is_normal_object, hsc]
      · rename_i hsc
        split at h
        · rename_i hf
          rw [ih s h]
          simp only [Bool.not_eq_true] at hf
          simp [declaration_t.chain, in_function_region, has_function_type, hf]
        · rename_i hf
          obtain ⟨u, hu, hk⟩ := andThen_returned _ _ _ h
          rw [ih u hk]
          have h2 := (returned_out_of_shift _
            (write_function_shift g symbol type init ctx) s u hu).2
          simp only [ne_eq, Decidable.not_not] at hns
          simp only [not_or] at hsc
          simp only [Bool.not_eq_true, Bool.not_eq_false] at hf
          simp [declaration_t.chain, in_function_region, is_normal_object,
            has_function_type, hns, hsc.1, hsc.2, hf, function_region_line, h2,
            string_join_cons, String.append_assoc]

/-- C1: when `write_fluffy_decls` returns, what it has appended to `out` is
    the header line, then the blocks of the type region, then the lines of
    the variable region, then the lines of the function region; each region
    holds one text per declaration of the region, in the order of the
    top-level declaration chain. -/
theorem write_fluffy_decls_regions_in_order (m : machine)
    (unit : translation_unit_t) (s t : streams)
    (h : write_fluffy_decls m unit s = .returned t) :
    t.out = s.out
      ++ "/* WARNING: Automatically generated file */\n"
      ++ String.join ((unit.context.declarations.chain.filter in_type_region).map
          (type_region_block { m with global_context := unit.context }))
      ++ String.join ((unit.context.declarations.chain.filter in_variable_region).map
          (variable_region_line { m with global_context := unit.context }))
      ++ String.join ((unit.context.declarations.chain.filter in_function_region).map
          (function_region_line { m with global_context := unit.context })) := by
  unfold write_fluffy_decls at h
  obtain ⟨u, hu, h⟩ := andThen_returned _ _ _ h
  obtain ⟨v, hv, h⟩ := andThen_returned _ _ _ h
  rw [write_fluffy_decls_functions_out _ _ _ _ h,
    write_fluffy_decls_variables_out _ _ _ _ hv,
    write_fluffy_decls_types_out _ _ _ _ hu]
  simp [fputs]

/-- The sample unit is written as the header, the block of `Foo`, the line
    of `v` and the line of `f`, and C1 applies to it. -/
theorem write_fluffy_decls_regions_in_order_witness :
    write_fluffy_decls sample_machine sample_unit streams.empty
        = .returned ⟨"/* WARNING: Automatically generated file */\n"
            ++ "struct Foo:\n\tx : int\n\n"
            ++ "var v : Foo\n"
            ++ "func extern f(a : int, ...) : int\n", ""⟩
      ∧ "/* WARNING: Automatically generated file */\n"
            ++ "struct Foo:\n\tx : int\n\n"
            ++ "var v : Foo\n"
            ++ "func extern f(a : int, ...) : int\n"
        = ""
          ++ "/* WARNING: Automatically generated file */\n"
          ++ String.join ((sample_Foo.chain.filter in_type_region).map
              (type_region_block sample_globals))
          ++ String.join ((sample_Foo.chain.filter in_variable_region).map
              (variable_region_line sample_globals))
          ++ String.join ((sample_Foo.chain.filter in_function_region).map
              (function_region_line sample_globals)) :=
  ⟨by rfl, write_fluffy_decls_regions_in_order sample_machine sample_unit
    streams.empty _ (by rfl)⟩

/-! ### C2, C3: the name of a struct, union or enum type -/

theorem find_typedef_from_eq (addr : Nat) (d : declaration_t) :
    find_typedef_from addr d
      = ((d.chain.find? (is_typedef_of addr)).getD .NULL) := by
  induction d with
  | NULL => simp [find_typedef_from, declaration_t.chain]
  | node symbol type sc ns init ctx next _ ih =>
    simp only [find_typedef_from, declaration_t.chain, List.find?_cons]
    by_cases hsc : sc = .STORAGE_CLASS_TYPEDEF
    · by_cases ha : type.addr = addr
      · simp [is_typedef_of, hsc, ha]
      · simp [is_typedef_of, hsc, ha, ih]
    · simp [is_typedef_of, hsc, ih]

theorem chain_mem_ne_NULL (d e : declaration_t) (h : e ∈ d.chain) :
    e ≠ .NULL := by
  induction d with
  | NULL => simp [declaration_t.chain] at h
  | node symbol type sc ns init ctx next _ ih =>
    simp only [declaration_t.chain, List.mem_cons] at h
    rcases h with h | h
    · rw [h]; simp
    · exact ih h

/-- With an alias in the unit, both name writers print its symbol. -/
theorem write_aggregate_name_of_alias (g : globals) (addr : Nat)
    (d : declaration_t) (sym : symbol_t)
    (hfind : g.global_context.declarations.chain.find? (is_typedef_of addr) = some d)
    (hsym : d.symbol = some sym) (declaration : Nat) (s : streams) :
    write_compound_type g addr declaration s = .returned (fputs sym.string s)
      ∧ write_enum_type g addr declaration s = .returned (fputs sym.string s) := by
  have hd : find_typedef g.global_context addr = d := by
    simp [find_typedef, find_typedef_from_eq, hfind]
  have hne : d ≠ .NULL := chain_mem_ne_NULL _ _ (List.mem_of_find?_eq_some hfind)
  cases d with
  | NULL => exact absurd rfl hne
  | node symbol type sc ns init ctx next =>
    simp only [declaration_t.symbol] at hsym
    subst hsym
    simp [write_compound_type, write_enum_type, hd, fputs_symbol_string]

/-- C2: when some top-level typedef has the very type node `T` (a struct,
    union or enum type) as its type, `write_type` renders `T` as the symbol of
    the earliest such typedef of the chain, whatever the defining declaration
    of `T` holds (tag or no tag) and wherever the typedef stands; so does
    every use of `T`: as a pointee, a struct member, a variable, a parameter
    and a result. -/
theorem write_type_typedef_alias (g : globals) (T : type_t) (d : declaration_t)
    (sym : symbol_t) (hT : T.is_aggregate = true)
    (hfind : g.global_context.declarations.chain.find? (is_typedef_of T.addr) = some d)
    (hsym : d.symbol = some sym) (s : streams) :
    write_type g T s = .returned (fputs sym.string s)
      ∧ (∀ a, write_type g (.pointer a T) s
          = .returned (fputs "*" (fputs sym.string s)))
      ∧ (∀ name : symbol_t, write_struct_entry g (some name) T s
          = .returned (fputs (("\t" ++ name.string ++ " : ") ++ sym.string ++ "\n") s))
      ∧ (∀ name : symbol_t, write_variable g (some name) T s
          = .returned (fputs (("var " ++ name.string ++ " : ") ++ sym.string ++ "\n") s))
      ∧ (∀ name : symbol_t,
          write_function_parameters g (plain_declaration (some name) T) true s
            = .returned (fputs ((name.string ++ " : ") ++ sym.string) s))
      ∧ (∀ a ps, write_function_tail g (.function a ps false T) true s
          = .returned (fputs (")" ++ " : " ++ sym.string ++ "\n") s)) := by
  have key : ∀ s, write_type g T s = .returned (fputs sym.string s) := by
    intro s
    cases T with
    | compound_struct a decl =>
      exact (write_aggregate_name_of_alias g a d sym hfind hsym decl s).1
    | compound_union a decl =>
      exact (write_aggregate_name_of_alias g a d sym hfind hsym decl s).1
    | enum a decl =>
      exact (write_aggregate_name_of_alias g a d sym hfind hsym decl s).2
    | atomic a at_ => simp [type_t.is_aggregate] at hT
    | pointer a pt => simp [type_t.is_aggregate] at hT
    | function a ps v r => simp [type_t.is_aggregate] at hT
    | invalid a => simp [type_t.is_aggregate] at hT
    | other a k => simp [type_t.is_aggregate] at hT
  refine ⟨key s, ?_, ?_, ?_, ?_, ?_⟩
  · intro a
    simp [write_type, write_pointer_type, key, status.andThen, fputs, fputc,
      String.singleton]
    rfl
  · intro name
    simp [write_struct_entry, key, status.andThen, fputs, String.append_assoc]
  · intro name
    simp [write_variable, key, status.andThen, fputs, String.append_assoc]
  · intro name
    simp [plain_declaration, write_function_parameters, key, status.andThen,
      fputs, String.append_assoc]
  · intro a ps
    have hk := key (fputs " : " (fputs ")" s))
    cases T with
    | compound_struct x decl =>
      simp only [write_function_tail, Bool.false_eq_true, if_false, hk]
      simp [status.andThen, fputs, fputc, String.append_assoc, String.singleton]
      rfl
    | compound_union x decl =>
      simp only [write_function_tail, Bool.false_eq_true, if_false, hk]
      simp [status.andThen, fputs, fputc, String.append_assoc, String.singleton]
      rfl
    | enum x decl =>
      simp only [write_function_tail, Bool.false_eq_true, if_false, hk]
      simp [status.andThen, fputs, fputc, String.append_assoc, String.singleton]
      rfl
    | atomic x at_ => simp [type_t.is_aggregate] at hT
    | pointer x pt => simp [type_t.is_aggregate] at hT
    | function x qs v r => simp [type_t.is_aggregate] at hT
    | invalid x => simp [type_t.is_aggregate] at hT
    | other x k => simp [type_t.is_aggregate] at hT

/-- In the sample unit the anonymous struct is rendered as `Foo`. -/
theorem write_type_typedef_alias_witness :
    sample_struct.is_aggregate = true
      ∧ sample_globals.global_context.declarations.chain.find?
          (is_typedef_of sample_struct.addr) = some sample_Foo
      ∧ sample_Foo.symbol = some ⟨"Foo"⟩
      ∧ write_type sample_globals sample_struct streams.empty
          = .returned (fputs "Foo" streams.empty) :=
  ⟨rfl, rfl, rfl,
    (write_type_typedef_alias sample_globals sample_struct sample_Foo ⟨"Foo"⟩
      rfl rfl rfl streams.empty).1⟩

/-- C3: when no top-level typedef has the type node stored at `addr` as its
    type, a struct, union or enum type stored there is rendered as the tag of
    its defining declaration when that has one, and otherwise as the flagged
    placeholder `/* TODO anonymous struct */byte` (struct and union) or
    `/* TODO anonymous enum */byte` (enum); in both cases `write_type`
    returns. -/
theorem write_type_without_typedef (g : globals) (addr declaration : Nat)
    (tag : Option symbol_t) (ty : type_t) (sc : storage_class_t)
    (ns : namespace_t) (init : init_t) (ctx next : declaration_t)
    (hno : g.global_context.declarations.chain.find? (is_typedef_of addr) = none)
    (hmem : g.mem declaration = .node tag ty sc ns init ctx next) (s : streams) :
    write_type g (.compound_struct addr declaration) s
        = .returned (fputs (match tag with
            | some sym => sym.string
            | none => "/* TODO anonymous struct */byte") s)
      ∧ write_type g (.compound_union addr declaration) s
        = .returned (fputs (match tag with
            | some sym => sym.string
            | none => "/* TODO anonymous struct */byte") s)
      ∧ write_type g (.enum addr declaration) s
        = .returned (fputs (match tag with
            | some sym => sym.string
            | none => "/* TODO anonymous enum */byte") s) := by
  have hd : find_typedef g.global_context addr = .NULL := by
    simp [find_typedef, find_typedef_from_eq, hno]
  cases tag <;>
    simp [write_type, write_compound_type, write_enum_type, hd, hmem]

/-- Without the typedef `Foo` the anonymous struct of the sample is rendered
    as the placeholder. -/
theorem write_type_without_typedef_witness :
    sample_globals_no_typedef.global_context.declarations.chain.find?
          (is_typedef_of 10) = none
      ∧ sample_globals_no_typedef.mem 100
          = .node none sample_struct (.other 0) (.other 1) .NULL sample_member_x .NULL
      ∧ write_type sample_globals_no_typedef (.compound_struct 10 100) streams.empty
          = .returned ⟨"/* TODO anonymous struct */byte", ""⟩ :=
  ⟨rfl, rfl,
    (write_type_without_typedef sample_globals_no_typedef 10 100 none
      sample_struct (.other 0) (.other 1) .NULL sample_member_x .NULL rfl rfl
      streams.empty).1⟩

/-! ### C4: pointers -/

/-- C4: when `write_type` returns on `T`, it returns on `T` under `n` pointer
    nodes and has written what it writes for `T` followed by `n` characters
    `*` and nothing else; one level gives `S*`, two levels give `S**`. -/
theorem write_type_pointers_to (g : globals) (T : type_t) (s t : streams)
    (h : write_type g T s = .returned t) (addrs : List Nat) :
    write_type g (pointers_to addrs T) s
        = .returned ⟨t.out ++ String.mk (List.replicate addrs.length '*'), t.err⟩
      ∧ (∀ a, write_type g (.pointer a T) s = .returned ⟨t.out ++ "*", t.err⟩)
      ∧ (∀ a b, write_type g (.pointer a (.pointer b T)) s
          = .returned ⟨t.out ++ "**", t.err⟩) := by
  have one : ∀ (U : type_t) (u : streams) (a : Nat),
      write_type g U s = .returned u →
      write_type g (.pointer a U) s = .returned ⟨u.out ++ "*", u.err⟩ := by
    intro U u a hU
    simp [write_type, write_pointer_type, hU, status.andThen, fputc,
      String.singleton]
    rfl
  refine ⟨?_, fun a => one T t a h, fun a b => ?_⟩
  · induction addrs with
    | nil =>
      simp only [pointers_to, List.foldr_nil, List.length_nil, List.replicate_zero]
      rw [h]
      show status.returned t = status.returned ⟨t.out ++ "", t.err⟩
      rw [String.append_empty]
    | cons a rest ih =>
      have h1 := one _ _ a ih
      simp only [pointers_to, List.foldr_cons] at h1 ⊢
      rw [h1, String.append_assoc]
      have h2 : String.mk (List.replicate rest.length '*') ++ "*"
          = String.mk (List.replicate (rest.length + 1) '*') := by
        apply String.ext
        simp [String.data_append, List.replicate_succ']
      rw [h2]
      simp
  · have h1 := one _ _ a (one T t b h)
    rw [h1, String.append_assoc]
    rfl

/-- The type `int` under two pointer nodes is rendered as `int**`. -/
theorem write_type_pointers_to_witness :
    write_type sample_globals sample_int streams.empty = .returned ⟨"int", ""⟩
      ∧ write_type sample_globals (pointers_to [2, 3] sample_int) streams.empty
          = .returned ⟨"int" ++ String.mk (List.replicate 2 '*'), ""⟩ :=
  ⟨rfl,
    (write_type_pointers_to sample_globals sample_int streams.empty ⟨"int", ""⟩
      rfl [2, 3]).1⟩

/-! ### C5, C6, C7: function declarations -/

/-- A call that returns on empty streams returns on all streams, having
    appended its text. -/
theorem returned_of_returns (W : streams → status)
    (hW : ∀ p s, W (p.shift s) = (W s).shift p) (h : returns W = true)
    (s : streams) :
    ∃ t, W s = .returned t ∧ t.out = s.out ++ text_of W := by
  have h1 := hW s streams.empty
  rw [streams_shift_empty] at h1
  unfold returns at h
  unfold text_of
  cases hr : W streams.empty with
  | returned u =>
    rw [hr] at h1
    exact ⟨s.shift u, h1, by simp [streams.shift, status.final]⟩
  | panic msg u => rw [hr] at h; simp at h
  | fault u => rw [hr] at h; simp at h

theorem intercalate_go_eq (sep acc : String) (l : List String) :
    String.intercalate.go acc sep l
      = acc ++ String.join (l.map (fun x => sep ++ x)) := by
  induction l generalizing acc with
  | nil => simp [String.intercalate.go, String.join]
  | cons a l ih =>
    simp [String.intercalate.go, ih, string_join_cons, String.append_assoc]

theorem intercalate_cons (sep a : String) (l : List String) :
    sep.intercalate (a :: l) = a ++ String.join (l.map (fun x => sep ++ x)) := by
  simp [String.intercalate, intercalate_go_eq]

/-- The parameter loop entered with `first` cleared writes `, ` before
    every parameter. -/
theorem write_function_parameters_rest (g : globals) (d : declaration_t)
    (hp : ∀ p ∈ d.chain, returns (write_type g p.type) = true) (s : streams) :
    ∃ t, write_function_parameters g d false s = .returned t
      ∧ t.out = s.out
          ++ String.join ((d.chain.map (parameter_text g)).map (fun x => ", " ++ x)) := by
  induction d generalizing s with
  | NULL =>
    exact ⟨s, by simp [write_function_parameters],
      by simp [declaration_t.chain, String.join]⟩
  | node symbol type sc ns init ctx next _ ih =>
    have hty : returns (write_type g type) = true :=
      hp (.node symbol type sc ns init ctx next) (by simp [declaration_t.chain])
    have hnext : ∀ p ∈ next.chain, returns (write_type g p.type) = true :=
      fun p hpm => hp p (by simp [declaration_t.chain, hpm])
    cases symbol with
    | none =>
      obtain ⟨u, hu, huo⟩ := returned_of_returns _ (write_type_shift g type) hty
        (fputs "_ : " (fputs ", " s))
      obtain ⟨t, ht, hto⟩ := ih hnext u
      refine ⟨t, ?_, ?_⟩
      · simp [write_function_parameters, hu, status.andThen, ht]
      · rw [hto, huo]
        simp only [declaration_t.chain, List.map_cons, parameter_text,
          string_join_cons, fputs, String.append_assoc]
    | some sym =>
      obtain ⟨u, hu, huo⟩ := returned_of_returns _ (write_type_shift g type) hty
        (fputs (sym.string ++ " : ") (fputs ", " s))
      obtain ⟨t, ht, hto⟩ := ih hnext u
      refine ⟨t, ?_, ?_⟩
      · simp [write_function_parameters, hu, status.andThen, ht]
      · rw [hto, huo]
        simp only [declaration_t.chain, List.map_cons, parameter_text,
          string_join_cons, fputs, String.append_assoc]

/-- The parameter loop of `write_function` writes the parameters joined by
    `, `. -/
theorem write_function_parameters_out (g : globals) (d : declaration_t)
    (hp : ∀ p ∈ d.chain, returns (write_type g p.type) = true) (s : streams) :
    ∃ t, write_function_parameters g d true s = .returned t
      ∧ t.out = s.out ++ ", ".intercalate (d.chain.map (parameter_text g)) := by
  cases d with
  | NULL =>
    exact ⟨s, by simp [write_function_parameters],
      by simp [declaration_t.chain, String.intercalate]⟩
  | node symbol type sc ns init ctx next =>
    have hty : returns (write_type g type) = true :=
      hp (.node symbol type sc ns init ctx next) (by simp [declaration_t.chain])
    have hnext : ∀ p ∈ next.chain, returns (write_type g p.type) = true :=
      fun p hpm => hp p (by simp [declaration_t.chain, hpm])
    cases symbol with
    | none =>
      obtain ⟨u, hu, huo⟩ := returned_of_returns _ (write_type_shift g type) hty
        (fputs "_ : " s)
      obtain ⟨t, ht, hto⟩ := write_function_parameters_rest g next hnext u
      refine ⟨t, ?_, ?_⟩
      · simp [write_function_parameters, hu, status.andThen, ht]
      · rw [hto, huo]
        simp only [declaration_t.chain, List.map_cons, parameter_text,
          intercalate_cons, fputs, String.append_assoc]
    | some sym =>
      obtain ⟨u, hu, huo⟩ := returned_of_returns _ (write_type_shift g type) hty
        (fputs (sym.string ++ " : ") s)
      obtain ⟨t, ht, hto⟩ := write_function_parameters_rest g next hnext u
      refine ⟨t, ?_, ?_⟩
      · simp [write_function_parameters, hu, status.andThen, ht]
      · rw [hto, huo]
        simp only [declaration_t.chain, List.map_cons, parameter_text,
          intercalate_cons, fputs, String.append_assoc]

theorem is_atomic_void_eq_false (T : type_t)
    (h : ∀ addr, T = .atomic addr .ATOMIC_TYPE_VOID → False) :
    is_atomic_void T = false := by
  cases T with
  | atomic a atype =>
    cases atype <;> first | exact absurd rfl (h a) | rfl
  | pointer a pt => rfl
  | compound_struct a d => rfl
  | compound_union a d => rfl
  | enum a d => rfl
  | function a ps v r => rfl
  | invalid a => rfl
  | other a k => rfl

theorem fputc_newline (s : streams) : fputc (Char.ofNat 10) s = fputs "\n" s := rfl

theorem fputs_out (str : String) (s : streams) : (fputs str s).out = s.out ++ str := rfl

/-- The tail of `write_function`: `...` for a variadic function, the closing
    parenthesis, the result type unless it is the atomic void type, and the
    end of the line. -/
theorem write_function_tail_out (g : globals) (a : Nat)
    (ps : function_parameter_t) (variadic : Bool) (result : type_t)
    (first : Bool) (hr : returns (write_type g result) = true) (s : streams) :
    ∃ t, write_function_tail g (.function a ps variadic result) first s
        = .returned t
      ∧ t.out = s.out
          ++ ((if variadic then (if first then "" else ", ") ++ "..." else "")
            ++ (")"
            ++ ((if is_atomic_void result then ""
                else " : " ++ text_of (write_type g result))
            ++ "\n"))) := by
  have hv : (if variadic = true then
        fputs "..." (if ¬ first = true then fputs ", " s else s) else s)
      = fputs (if variadic then (if first then "" else ", ") ++ "..." else "") s := by
    cases variadic <;> cases first <;>
      simp [fputs, String.append_assoc]
  simp only [write_function_tail]
  rw [hv]
  split
  · rename_i x
    refine ⟨_, rfl, ?_⟩
    simp only [is_atomic_void, fputc_newline, fputs_out, String.append_assoc,
      if_true, String.empty_append]
  · rename_i hne
    obtain ⟨u, hu, huo⟩ := returned_of_returns _ (write_type_shift g result) hr
      (fputs " : " (fputs ")" (fputs
        (if variadic then (if first then "" else ", ") ++ "..." else "") s)))
    refine ⟨fputs "\n" u, ?_, ?_⟩
    · rw [hu]; rfl
    · rw [is_atomic_void_eq_false result hne]
      simp only [fputs_out, huo, String.append_assoc, Bool.false_eq_true, if_false]

theorem is_null_eq_isEmpty (d : declaration_t) : d.is_null = d.chain.isEmpty := by
  cases d <;> rfl

/-- The whole line of a function declaration whose parameter types and
    result type can be rendered. -/
theorem write_function_out (g : globals) (f : symbol_t) (a : Nat)
    (ps : function_parameter_t) (variadic : Bool) (result : type_t)
    (init : init_t) (ctx : declaration_t)
    (hp : ∀ p ∈ ctx.chain, returns (write_type g p.type) = true)
    (hr : returns (write_type g result) = true) (s : streams) :
    ∃ t, write_function g (some f) (.function a ps variadic result) init ctx s
        = .returned t
      ∧ t.out = s.out
          ++ (function_head_text g f ctx variadic
            ++ ((if is_atomic_void result then ""
                else " : " ++ text_of (write_type g result))
            ++ "\n")) := by
  obtain ⟨u, hu, huo⟩ := write_function_parameters_out g ctx hp
    (fputs ("func extern " ++ f.string ++ "(")
      (if ¬ init.is_null then
        fputs_stderr ("Warning: can't convert function bodies (at "
          ++ f.string ++ ")\n") s
       else s))
  obtain ⟨t, ht, hto⟩ := write_function_tail_out g a ps variadic result
    ctx.is_null hr u
  refine ⟨t, ?_, ?_⟩
  · simp only [write_function, hu, status.andThen, ht]
  · have hs : (if ¬ init.is_null then
          fputs_stderr ("Warning: can't convert function bodies (at "
            ++ f.string ++ ")\n") s
         else s).out = s.out := by
      split <;> rfl
    rw [hto, huo, fputs_out, hs, is_null_eq_isEmpty]
    simp only [function_head_text, String.append_assoc]

/-- C5: for a function declaration named `f` whose parameter types and
    result type can be rendered, `write_function` returns and has written
    `func extern f(`, then the parameters in chain order joined by `, `, each
    as `<name> : <type>` or `_ : <type>` when it has no name, then `...` when
    the function type is variadic (after a `, ` exactly when there is a
    parameter), then `)`. -/
theorem write_function_signature (g : globals) (f : symbol_t) (a : Nat)
    (ps : function_parameter_t) (variadic : Bool) (result : type_t)
    (init : init_t) (ctx : declaration_t)
    (hp : ∀ p ∈ ctx.chain, returns (write_type g p.type) = true)
    (hr : returns (write_type g result) = true) (s : streams) :
    ∃ t rest,
      write_function g (some f) (.function a ps variadic result) init ctx s
        = .returned t
      ∧ t.out = s.out ++ "func extern " ++ f.string ++ "("
          ++ ", ".intercalate (ctx.chain.map (parameter_text g))
          ++ (if variadic then (if ctx.chain.isEmpty then "" else ", ") ++ "..."
              else "")
          ++ ")" ++ rest := by
  obtain ⟨t, ht, hto⟩ := write_function_out g f a ps variadic result init ctx hp hr s
  refine ⟨t, (if is_atomic_void result then ""
      else " : " ++ text_of (write_type g result)) ++ "\n", ht, ?_⟩
  rw [hto]
  simp only [function_head_text, String.append_assoc]

/-- The declaration `int f(int a, ...)` of the sample: one named parameter
    and `...`. -/
theorem write_function_signature_witness :
    (∀ p ∈ sample_parameter_a.chain,
        returns (write_type sample_globals p.type) = true)
      ∧ returns (write_type sample_globals sample_int) = true
      ∧ ∃ t rest,
        write_function sample_globals (some ⟨"f"⟩)
            (.function 20 (.node sample_int (some ⟨"a"⟩) .NULL) true sample_int)
            .NULL sample_parameter_a streams.empty
          = .returned t
        ∧ t.out = streams.empty.out ++ "func extern " ++ "f" ++ "("
            ++ ", ".intercalate (sample_parameter_a.chain.map
                (parameter_text sample_globals))
            ++ (if true then (if sample_parameter_a.chain.isEmpty then "" else ", ")
                  ++ "..."
                else "")
            ++ ")" ++ rest :=
  ⟨by decide, rfl,
    write_function_signature sample_globals ⟨"f"⟩ 20
      (.node sample_int (some ⟨"a"⟩) .NULL) true sample_int .NULL
      sample_parameter_a (by decide) rfl streams.empty⟩

/-- C6, as stated, fails: for `int f(int a, ...)` the line written is not
    `func extern f(_ : int, ...) : int`. -/
theorem write_function_variadic_not_underscore :
    write_function sample_globals (some ⟨"f"⟩) (variadic_int_function_type 20 1 1)
        .NULL (plain_declaration (some ⟨"a"⟩) (.atomic 1 .ATOMIC_TYPE_INT))
        streams.empty
      ≠ .returned ⟨"func extern f(_ : int, ...) : int\n", ""⟩ := by
  decide

/-- C6, amended: `int f(int a, ...)` is written as the line
    `func extern f(a : int, ...) : int`, the name of the parameter being
    printed; it is the declaration without a parameter name,
    `int f(int, ...)`, that is written as `func extern f(_ : int, ...) : int`. -/
theorem write_function_variadic_named (g : globals) (a a1 a2 a3 : Nat)
    (s : streams) :
    write_function g (some ⟨"f"⟩) (variadic_int_function_type a a1 a2) .NULL
        (plain_declaration (some ⟨"a"⟩) (.atomic a3 .ATOMIC_TYPE_INT)) s
      = .returned (fputs "func extern f(a : int, ...) : int\n" s)
    ∧ write_function g (some ⟨"f"⟩) (variadic_int_function_type a a1 a2) .NULL
        (plain_declaration none (.atomic a3 .ATOMIC_TYPE_INT)) s
      = .returned (fputs "func extern f(_ : int, ...) : int\n" s) := by
  have hshift : ∀ (r : String), (status.returned ⟨r, ""⟩).shift s
      = .returned (fputs r s) := by
    intro r
    simp [status.shift, streams.shift, fputs]
  constructor
  · have h := write_function_shift g (some ⟨"f"⟩) (variadic_int_function_type a a1 a2)
      .NULL (plain_declaration (some ⟨"a"⟩) (.atomic a3 .ATOMIC_TYPE_INT)) s
      streams.empty
    rw [streams_shift_empty] at h
    rw [h]
    exact hshift _
  · have h := write_function_shift g (some ⟨"f"⟩) (variadic_int_function_type a a1 a2)
      .NULL (plain_declaration none (.atomic a3 .ATOMIC_TYPE_INT)) s
      streams.empty
    rw [streams_shift_empty] at h
    rw [h]
    exact hshift _

/-- C7: for a function declaration whose parameter types and result type
    can be rendered, the line ends right after `)` when the result type is the
    atomic void type, and otherwise continues with ` : ` and the rendered
    result type; a pointer to void is such a result and is shown as
    ` : void*`. -/
theorem write_function_result_type (g : globals) (f : symbol_t) (a : Nat)
    (ps : function_parameter_t) (variadic : Bool) (result : type_t)
    (init : init_t) (ctx : declaration_t)
    (hp : ∀ p ∈ ctx.chain, returns (write_type g p.type) = true)
    (hr : returns (write_type g result) = true) (s : streams) :
    ∃ t,
      write_function g (some f) (.function a ps variadic result) init ctx s
        = .returned t
      ∧ (is_atomic_void result = true →
          t.out = s.out ++ function_head_text g f ctx variadic ++ "\n")
      ∧ (is_atomic_void result = false →
          t.out = s.out ++ function_head_text g f ctx variadic
            ++ " : " ++ text_of (write_type g result) ++ "\n")
      ∧ (∀ x y, result = .pointer x (.atomic y .ATOMIC_TYPE_VOID) →
          t.out = s.out ++ function_head_text g f ctx variadic
            ++ " : void*" ++ "\n") := by
  obtain ⟨t, ht, hto⟩ := write_function_out g f a ps variadic result init ctx hp hr s
  refine ⟨t, ht, ?_, ?_, ?_⟩
  · intro hvoid
    rw [hto, hvoid]
    simp only [if_true, String.empty_append, String.append_assoc]
  · intro hvoid
    rw [hto, hvoid]
    simp only [Bool.false_eq_true, if_false, String.append_assoc]
  · intro x y hxy
    subst hxy
    rw [hto]
    have h1 : text_of (write_type g (.pointer x (.atomic y .ATOMIC_TYPE_VOID)))
        = "void*" := rfl
    have h2 : is_atomic_void (.pointer x (.atomic y .ATOMIC_TYPE_VOID)) = false := rfl
    rw [h1, h2]
    simp only [Bool.false_eq_true, if_false, String.append_assoc]
    rfl

/-- A function of the sample with result type pointer to void. -/
theorem write_function_result_type_witness :
    (∀ p ∈ sample_parameter_a.chain,
        returns (write_type sample_globals p.type) = true)
      ∧ returns (write_type sample_globals
          (.pointer 30 (.atomic 31 .ATOMIC_TYPE_VOID))) = true
      ∧ ∃ t,
        write_function sample_globals (some ⟨"f"⟩)
            (.function 20 (.node sample_int (some ⟨"a"⟩) .NULL) false
              (.pointer 30 (.atomic 31 .ATOMIC_TYPE_VOID)))
            .NULL sample_parameter_a streams.empty
          = .returned t
        ∧ t.out = "func extern f(a : int) : void*\n" := by
  refine ⟨by decide, rfl, ?_⟩
  obtain ⟨t, ht, _, _, h3⟩ :=
    write_function_result_type sample_globals ⟨"f"⟩ 20
      (.node sample_int (some ⟨"a"⟩) .NULL) false
      (.pointer 30 (.atomic 31 .ATOMIC_TYPE_VOID)) .NULL sample_parameter_a
      (by decide) rfl streams.empty
  exact ⟨t, ht, h3 30 31 rfl⟩

/-! ### C8, C9: enum blocks -/

/-- The entry loop of `write_enum` writes one line per entry. -/
theorem write_enum_entries_out (g : globals) (d : declaration_t)
    (hok : ∀ e ∈ enum_entries d, enum_entry_ok g e = true) (s : streams) :
    ∃ t, write_enum_entries g d s = .returned t
      ∧ t.out = s.out ++ String.join ((enum_entries d).map (enum_entry_line g)) := by
  induction d generalizing s with
  | NULL =>
    exact ⟨s, by simp [write_enum_entries],
      by simp [enum_entries, declaration_t.chain, String.join]⟩
  | node symbol type sc ns init ctx next _ ih =>
    by_cases hsc : sc = .STORAGE_CLASS_ENUM_ENTRY
    · subst hsc
      have hcons : enum_entries (.node symbol type .STORAGE_CLASS_ENUM_ENTRY ns init
            ctx next)
          = .node symbol type .STORAGE_CLASS_ENUM_ENTRY ns init ctx next
            :: enum_entries next := by
        simp [enum_entries, declaration_t.chain, is_enum_entry]
      rw [hcons] at hok ⊢
      have hhead := hok _ (List.mem_cons_self _ _)
      have hnext : ∀ e ∈ enum_entries next, enum_entry_ok g e = true :=
        fun e he => hok e (List.mem_cons_of_mem _ he)
      cases symbol with
      | none => simp [enum_entry_ok] at hhead
      | some sym =>
        cases init with
        | NULL =>
          obtain ⟨t, ht, hto⟩ := ih hnext (fputc (Char.ofNat 10) (fputs ("\t" ++ sym.string) s))
          refine ⟨t, ?_, ?_⟩
          · simp only [write_enum_entries, if_true, status.andThen]
            exact ht
          · rw [hto]
            simp only [List.map_cons, string_join_cons, enum_entry_line,
              fputc_newline, fputs_out, String.append_assoc]
        | enum_value x =>
          simp only [enum_entry_ok] at hhead
          obtain ⟨u, hu, huo⟩ := returned_of_returns _ (write_expression_shift g x)
            hhead (fputs " <- " (fputs ("\t" ++ sym.string) s))
          obtain ⟨t, ht, hto⟩ := ih hnext (fputc (Char.ofNat 10) u)
          refine ⟨t, ?_, ?_⟩
          · simp only [write_enum_entries, if_true, hu, status.andThen]
            exact ht
          · rw [hto]
            simp only [List.map_cons, string_join_cons, enum_entry_line,
              fputc_newline, fputs_out, huo, String.append_assoc]
        | initializer x => simp [enum_entry_ok] at hhead
        | statement x => simp [enum_entry_ok] at hhead
    · refine ⟨s, by simp [write_enum_entries, hsc], ?_⟩
      simp [enum_entries, declaration_t.chain, is_enum_entry, hsc, String.join]

/-- C8: for an enum typedef named `N` whose entries have names and
    initializers that can be rendered, `write_enum` returns and has written
    the header `enum N:`, then one line per entry in chain order (the entries
    being the enum entries that directly follow the defining declaration of
    the enum), each made of a tab, the name of the entry, and ` <- ` with the
    rendered value exactly when the entry has an initializer, then, right
    after the last entry line, the line `typealias N <- int`, and an empty
    line. -/
theorem write_enum_block (g : globals) (N : symbol_t) (declaration : Nat)
    (tag : Option symbol_t) (ty : type_t) (sc : storage_class_t)
    (ns : namespace_t) (init : init_t) (ctx next : declaration_t)
    (hmem : g.mem declaration = .node tag ty sc ns init ctx next)
    (hok : ∀ e ∈ enum_entries next, enum_entry_ok g e = true) (s : streams) :
    ∃ t, write_enum g (some N) declaration s = .returned t
      ∧ t.out = s.out ++ "enum " ++ N.string ++ ":\n"
          ++ String.join ((enum_entries next).map (enum_entry_line g))
          ++ "typealias " ++ N.string ++ " <- int\n"
          ++ "\n" := by
  obtain ⟨t, ht, hto⟩ := write_enum_entries_out g next hok
    (fputs ("enum " ++ N.string ++ ":\n") s)
  refine ⟨fputs "\n" (fputs ("typealias " ++ N.string ++ " <- int\n") t), ?_, ?_⟩
  · simp only [write_enum, hmem, ht, status.andThen]
  · simp only [fputs_out, hto, String.append_assoc]

/-- The enum `{ A, B = 5, C }` of the sample, named `E`: the lines `A`,
    `B <- 5`, `C`, then the alias line. -/
theorem write_enum_block_witness :
    sample_globals.mem 200
        = .node none (.enum 11 200) (.other 0) (.other 2) .NULL .NULL sample_entries
      ∧ (∀ e ∈ enum_entries sample_entries, enum_entry_ok sample_globals e = true)
      ∧ write_enum sample_globals (some ⟨"E"⟩) 200 streams.empty
          = .returned ⟨"enum E:\n\tA\n\tB <- 5\n\tC\ntypealias E <- int\n\n", ""⟩
      ∧ ∃ t, write_enum sample_globals (some ⟨"E"⟩) 200 streams.empty = .returned t
          ∧ t.out = streams.empty.out ++ "enum " ++ "E" ++ ":\n"
              ++ String.join ((enum_entries sample_entries).map
                  (enum_entry_line sample_globals))
              ++ "typealias " ++ "E" ++ " <- int\n"
              ++ "\n" :=
  ⟨rfl, by decide, rfl,
    write_enum_block sample_globals ⟨"E"⟩ 200 none (.enum 11 200) (.other 0)
      (.other 2) .NULL .NULL sample_entries rfl (by decide) streams.empty⟩

theorem write_expression_unsupported (g : globals) (x : expression_t)
    (hx : is_unsupported_expression x = true) (s : streams) :
    ∃ msg, write_expression g x s = .panic msg s := by
  cases x with
  | const dt i f => simp [is_unsupported_expression] at hx
  | unary ty v =>
    cases ty with
    | UNEXPR_NEGATE => simp [is_unsupported_expression] at hx
    | UNEXPR_NOT => simp [is_unsupported_expression] at hx
    | other n => exact ⟨"unimplemented unary expression found", rfl⟩
  | binary ty l r => exact ⟨"not implemented expression", rfl⟩
  | other k => exact ⟨"not implemented expression", rfl⟩

theorem chain_eq_cons (d e : declaration_t) (l : List declaration_t)
    (h : d.chain = e :: l) :
    d = e ∧ ∃ symbol type sc ns init ctx next,
      e = .node symbol type sc ns init ctx next ∧ next.chain = l := by
  cases d with
  | NULL => simp [declaration_t.chain] at h
  | node symbol type sc ns init ctx next =>
    simp only [declaration_t.chain, List.cons.injEq] at h
    exact ⟨h.1, symbol, type, sc, ns, init, ctx, next, h.1.symm, h.2⟩

/-- The entry loop of `write_enum` stops in `panic` at the first entry whose
    initializer is unsupported, with the earlier lines and the beginning of
    the line of that entry written. -/
theorem write_enum_entries_unsupported (g : globals)
    (pre : List declaration_t) (d : declaration_t) (name : symbol_t)
    (x : expression_t) (bty : type_t) (bns : namespace_t)
    (bctx bnext : declaration_t) (post : List declaration_t)
    (hchain : d.chain = pre
      ++ .node (some name) bty .STORAGE_CLASS_ENUM_ENTRY bns (.enum_value x) bctx bnext
        :: post)
    (hpre : ∀ e ∈ pre, is_enum_entry e = true ∧ enum_entry_ok g e = true)
    (hx : is_unsupported_expression x = true) (s : streams) :
    ∃ msg t, write_enum_entries g d s = .panic msg t
      ∧ t.out = s.out ++ String.join (pre.map (enum_entry_line g))
          ++ "\t" ++ name.string ++ " <- " := by
  induction pre generalizing d s with
  | nil =>
    obtain ⟨hd, _⟩ := chain_eq_cons _ _ _ hchain
    subst hd
    obtain ⟨msg, hmsg⟩ := write_expression_unsupported g x hx
      (fputs " <- " (fputs ("\t" ++ name.string) s))
    refine ⟨msg, fputs " <- " (fputs ("\t" ++ name.string) s), ?_, ?_⟩
    · simp only [write_enum_entries, if_true, hmsg, status.andThen]
    · simp only [fputs_out, List.map_nil, String.join, List.foldl_nil,
        String.append_assoc, String.empty_append]
  | cons e pre ih =>
    obtain ⟨hd, symbol, type, sc, ns, init, ctx, next, he, hnext⟩ :=
      chain_eq_cons _ _ _ hchain
    subst hd
    subst he
    obtain ⟨hentry, hok⟩ := hpre _ (List.mem_cons_self _ _)
    have hpre2 : ∀ e ∈ pre, is_enum_entry e = true ∧ enum_entry_ok g e = true :=
      fun e he => hpre e (List.mem_cons_of_mem _ he)
    simp only [is_enum_entry, decide_eq_true_eq] at hentry
    subst hentry
    cases symbol with
    | none => simp [enum_entry_ok] at hok
    | some sym =>
      cases init with
      | NULL =>
        obtain ⟨msg, t, ht, hto⟩ := ih next hnext hpre2
          (fputc (Char.ofNat 10) (fputs ("\t" ++ sym.string) s))
        refine ⟨msg, t, ?_, ?_⟩
        · simp only [write_enum_entries, if_true, status.andThen]
          exact ht
        · rw [hto]
          simp only [List.map_cons, string_join_cons, enum_entry_line,
            fputc_newline, fputs_out, String.append_assoc]
      | enum_value y =>
        simp only [enum_entry_ok] at hok
        obtain ⟨u, hu, huo⟩ := returned_of_returns _ (write_expression_shift g y)
          hok (fputs " <- " (fputs ("\t" ++ sym.string) s))
        obtain ⟨msg, t, ht, hto⟩ := ih next hnext hpre2 (fputc (Char.ofNat 10) u)
        refine ⟨msg, t, ?_, ?_⟩
        · simp only [write_enum_entries, if_true, hu, status.andThen]
          exact ht
        · rw [hto]
          simp only [List.map_cons, string_join_cons, enum_entry_line,
            fputc_newline, fputs_out, huo, String.append_assoc]
      | initializer y => simp [enum_entry_ok] at hok
      | statement y => simp [enum_entry_ok] at hok

/-- C9, as stated, fails: for the enum `{ P, Q = 1 + 2 }` of the sample,
    named `Bad`, `write_enum` ends in `panic` with the header of the block, the
    line of `P` and the beginning of the line of `Q` on `out`. -/
theorem write_enum_binary_initializer_partial_output :
    write_enum sample_globals (some ⟨"Bad"⟩) 300 streams.empty
        = .panic "not implemented expression" ⟨"enum Bad:\n\tP\n\tQ <- ", ""⟩
      ∧ (write_enum sample_globals (some ⟨"Bad"⟩) 300 streams.empty).final.out
        ≠ streams.empty.out := by
  decide

/-- C9, amended: when an entry of an enum has an initializer that is neither
    a constant nor a unary negate or not, and the entries before it can be
    written, `write_enum` ends in `panic`, so nothing is written after that
    point; at the `panic` the block of the enum is on `out` as far as it was
    written: the header `enum N:`, the lines of the earlier entries, and the
    name of the offending entry followed by ` <- `. -/
theorem write_enum_unsupported_initializer (g : globals) (N : symbol_t)
    (declaration : Nat) (tag : Option symbol_t) (ty : type_t)
    (sc : storage_class_t) (ns : namespace_t) (init : init_t)
    (ctx next : declaration_t)
    (pre : List declaration_t) (name : symbol_t)
    (x : expression_t) (bty : type_t) (bns : namespace_t)
    (bctx bnext : declaration_t) (post : List declaration_t)
    (hmem : g.mem declaration = .node tag ty sc ns init ctx next)
    (hchain : next.chain = pre
      ++ .node (some name) bty .STORAGE_CLASS_ENUM_ENTRY bns (.enum_value x) bctx bnext
        :: post)
    (hpre : ∀ e ∈ pre, is_enum_entry e = true ∧ enum_entry_ok g e = true)
    (hx : is_unsupported_expression x = true) (s : streams) :
    ∃ msg t, write_enum g (some N) declaration s = .panic msg t
      ∧ t.out = s.out ++ "enum " ++ N.string ++ ":\n"
          ++ String.join (pre.map (enum_entry_line g))
          ++ "\t" ++ name.string ++ " <- " := by
  obtain ⟨msg, t, ht, hto⟩ := write_enum_entries_unsupported g pre next name x bty
    bns bctx bnext post hchain hpre hx (fputs ("enum " ++ N.string ++ ":\n") s)
  refine ⟨msg, t, ?_, ?_⟩
  · simp only [write_enum, hmem, ht, status.andThen]
  · simp only [hto, fputs_out, String.append_assoc]

/-- The enum `{ P, Q = 1 + 2 }` of the sample. -/
theorem write_enum_unsupported_initializer_witness :
    sample_globals.mem 300
        = .node none (.enum 12 300) (.other 0) (.other 2) .NULL .NULL
            sample_bad_entries
      ∧ sample_bad_entries.chain = [sample_bad_entries]
          ++ .node (some ⟨"Q"⟩) (.atomic 1 .ATOMIC_TYPE_INT)
              .STORAGE_CLASS_ENUM_ENTRY .NAMESPACE_NORMAL
              (.enum_value (.binary 0 (int_const 1) (int_const 2))) .NULL .NULL
            :: []
      ∧ (∀ e ∈ [sample_bad_entries],
          is_enum_entry e = true ∧ enum_entry_ok sample_globals e = true)
      ∧ is_unsupported_expression (.binary 0 (int_const 1) (int_const 2)) = true
      ∧ ∃ msg t,
          write_enum sample_globals (some ⟨"Bad"⟩) 300 streams.empty = .panic msg t
          ∧ t.out = streams.empty.out ++ "enum " ++ "Bad" ++ ":\n"
              ++ String.join ([sample_bad_entries].map (enum_entry_line sample_globals))
              ++ "\t" ++ "Q" ++ " <- " :=
  ⟨rfl, rfl, by decide, rfl,
    write_enum_unsupported_initializer sample_globals ⟨"Bad"⟩ 300 none
      (.enum 12 300) (.other 0) (.other 2) .NULL .NULL sample_bad_entries
      [sample_bad_entries] ⟨"Q"⟩ (.binary 0 (int_const 1) (int_const 2))
      (.atomic 1 .ATOMIC_TYPE_INT) .NAMESPACE_NORMAL .NULL .NULL [] rfl rfl
      (by decide) rfl streams.empty⟩

/-! ### C10: expressions -/

/-- C10: an integer constant under any number of unary negate and not nodes
    is written, outermost operator first, as one `-` per negate and one `!`
    per not, with nothing between them, followed by the signed decimal text of
    the constant; `write_expression` returns. -/
theorem write_expression_unary_chain (g : globals)
    (ops : List unary_expression_type_t) (datatype : type_t) (i : Int)
    (f : long_double)
    (hops : ∀ o ∈ ops, o = .UNEXPR_NEGATE ∨ o = .UNEXPR_NOT)
    (hint : g.is_type_integer datatype = true) (s : streams) :
    write_expression g (unary_chain ops (.const datatype i f)) s
        = .returned (fputs (String.join (ops.map unary_operator_text)
            ++ printf_lld i) s)
      ∧ printf_lld i = toString i := by
  constructor
  · induction ops generalizing s with
    | nil =>
      simp [unary_chain, write_expression, hint, String.join]
    | cons o ops ih =>
      have hops2 : ∀ o ∈ ops, o = .UNEXPR_NEGATE ∨ o = .UNEXPR_NOT :=
        fun o ho => hops o (List.mem_cons_of_mem _ ho)
      have hrest := fun s => ih hops2 s
      simp only [unary_chain] at hrest
      rcases hops o (List.mem_cons_self _ _) with ho | ho <;>
        subst ho <;>
        simp only [unary_chain, List.foldr_cons, write_expression,
          write_unary_expression, hrest, List.map_cons, string_join_cons,
          unary_operator_text, fputs, fputc, String.append_assoc] <;>
        rfl
  · cases i <;> rfl

/-- The expressions `not(negate(5))` and `negate(5)`. -/
theorem write_expression_unary_chain_witness :
    (∀ o ∈ [unary_expression_type_t.UNEXPR_NOT, .UNEXPR_NEGATE],
        o = .UNEXPR_NEGATE ∨ o = .UNEXPR_NOT)
      ∧ sample_globals.is_type_integer (.atomic 1 .ATOMIC_TYPE_INT) = true
      ∧ write_expression sample_globals
          (.unary .UNEXPR_NOT (.unary .UNEXPR_NEGATE (int_const 5))) streams.empty
          = .returned ⟨"!-5", ""⟩
      ∧ write_expression sample_globals (.unary .UNEXPR_NEGATE (int_const 5))
          streams.empty
          = .returned ⟨"-5", ""⟩
      ∧ write_expression sample_globals
          (unary_chain [.UNEXPR_NOT, .UNEXPR_NEGATE]
            (.const (.atomic 1 .ATOMIC_TYPE_INT) 5 ⟨0⟩)) streams.empty
          = .returned (fputs (String.join
              ([unary_expression_type_t.UNEXPR_NOT, .UNEXPR_NEGATE].map
                unary_operator_text) ++ printf_lld 5) streams.empty) :=
  ⟨by decide, rfl, rfl, rfl,
    (write_expression_unary_chain sample_globals [.UNEXPR_NOT, .UNEXPR_NEGATE]
      (.atomic 1 .ATOMIC_TYPE_INT) 5 ⟨0⟩ (by decide) rfl streams.empty).1⟩

/-! ### C11: struct and union blocks -/

/-- The member loop of `write_struct` and `write_union` writes one line per
    member. -/
theorem write_struct_entries_out (g : globals) (d : declaration_t)
    (hok : ∀ e ∈ d.chain, member_ok g e = true) (s : streams) :
    ∃ t, write_struct_entries g d s = .returned t
      ∧ t.out = s.out ++ String.join (d.chain.map (member_line g)) := by
  induction d generalizing s with
  | NULL =>
    exact ⟨s, by simp [write_struct_entries],
      by simp [declaration_t.chain, String.join]⟩
  | node symbol type sc ns init ctx next _ ih =>
    have hhead := hok (.node symbol type sc ns init ctx next)
      (by simp [declaration_t.chain])
    have hnext : ∀ e ∈ next.chain, member_ok g e = true :=
      fun e he => hok e (by simp [declaration_t.chain, he])
    cases symbol with
    | none => simp [member_ok] at hhead
    | some sym =>
      simp only [member_ok] at hhead
      obtain ⟨u, hu, huo⟩ := returned_of_returns _ (write_type_shift g type) hhead
        (fputs ("\t" ++ sym.string ++ " : ") s)
      obtain ⟨t, ht, hto⟩ := ih hnext (fputs "\n" u)
      refine ⟨t, ?_, ?_⟩
      · simp only [write_struct_entries, write_struct_entry, hu, status.andThen]
        exact ht
      · rw [hto]
        simp only [declaration_t.chain, List.map_cons, string_join_cons,
          member_line, fputs_out, huo, String.append_assoc]

/-- C11: for a struct or union typedef named `N` whose defining declaration
    has members with names and types that can be rendered, `write_struct` and
    `write_union` return and have written the header `struct N:`,
    respectively `union N:`, then one line per member in chain order, made of
    a tab, the name of the member, ` : ` and its rendered type, then an empty
    line; the two texts have the same body after the keyword, and the body
    has as many member lines as there are members. -/
theorem write_struct_union_block (g : globals) (N : symbol_t) (declaration : Nat)
    (tag : Option symbol_t) (ty : type_t) (sc : storage_class_t)
    (ns : namespace_t) (init : init_t) (members next : declaration_t)
    (hmem : g.mem declaration = .node tag ty sc ns init members next)
    (hok : ∀ e ∈ members.chain, member_ok g e = true) (s : streams) :
    ∃ t u, write_struct g (some N) declaration s = .returned t
      ∧ write_union g (some N) declaration s = .returned u
      ∧ t.out = s.out ++ "struct " ++ N.string ++ ":\n"
          ++ String.join (members.chain.map (member_line g)) ++ "\n"
      ∧ u.out = s.out ++ "union " ++ N.string ++ ":\n"
          ++ String.join (members.chain.map (member_line g)) ++ "\n"
      ∧ (members.chain.map (member_line g)).length = members.chain.length := by
  obtain ⟨t, ht, hto⟩ := write_struct_entries_out g members hok
    (fputs ("struct " ++ N.string ++ ":\n") s)
  obtain ⟨u, hu, huo⟩ := write_struct_entries_out g members hok
    (fputs ("union " ++ N.string ++ ":\n") s)
  refine ⟨fputs "\n" t, fputs "\n" u, ?_, ?_, ?_, ?_, ?_⟩
  · simp only [write_struct, hmem, ht, status.andThen]
  · simp only [write_union, hmem, hu, status.andThen]
  · simp only [fputs_out, hto, String.append_assoc]
  · simp only [fputs_out, huo, String.append_assoc]
  · simp

/-- The struct of the sample, written as a struct and as a union named
    `Foo`. -/
theorem write_struct_union_block_witness :
    sample_globals.mem 100
        = .node none sample_struct (.other 0) (.other 1) .NULL sample_member_x .NULL
      ∧ (∀ e ∈ sample_member_x.chain, member_ok sample_globals e = true)
      ∧ write_struct sample_globals (some ⟨"Foo"⟩) 100 streams.empty
          = .returned ⟨"struct Foo:\n\tx : int\n\n", ""⟩
      ∧ write_union sample_globals (some ⟨"Foo"⟩) 100 streams.empty
          = .returned ⟨"union Foo:\n\tx : int\n\n", ""⟩
      ∧ ∃ t u, write_struct sample_globals (some ⟨"Foo"⟩) 100 streams.empty
            = .returned t
          ∧ write_union sample_globals (some ⟨"Foo"⟩) 100 streams.empty
            = .returned u
          ∧ t.out = streams.empty.out ++ "struct " ++ "Foo" ++ ":\n"
              ++ String.join (sample_member_x.chain.map (member_line sample_globals))
              ++ "\n"
          ∧ u.out = streams.empty.out ++ "union " ++ "Foo" ++ ":\n"
              ++ String.join (sample_member_x.chain.map (member_line sample_globals))
              ++ "\n"
          ∧ (sample_member_x.chain.map (member_line sample_globals)).length
              = sample_member_x.chain.length :=
  ⟨rfl, by decide, rfl, rfl,
    write_struct_union_block sample_globals ⟨"Foo"⟩ 100 none sample_struct
      (.other 0) (.other 1) .NULL sample_member_x .NULL rfl (by decide)
      streams.empty⟩

/-! ### C12: nested function types -/

/-- The parameter loop of `write_function_type` entered with `first` cleared
    writes `, ` before every parameter. -/
theorem write_function_type_parameters_rest (g : globals) :
    (ps : function_parameter_t) →
    (∀ T ∈ ps.types, returns (write_type g T) = true) → (s : streams) →
    ∃ t, write_function_type_parameters g ps false s = .returned t
      ∧ t.out = s.out ++ String.join
          ((ps.types.map (fun T => "_ : " ++ text_of (write_type g T))).map
            (fun x => ", " ++ x))
  | .NULL, _, s =>
    ⟨s, by simp [write_function_type_parameters],
      by simp [function_parameter_t.types, String.join]⟩
  | .node type symbol next, hp, s => by
    have hty : returns (write_type g type) = true :=
      hp type (by simp [function_parameter_t.types])
    have hnext : ∀ T ∈ next.types, returns (write_type g T) = true :=
      fun T hT => hp T (by simp [function_parameter_t.types, hT])
    obtain ⟨u, hu, huo⟩ := returned_of_returns _ (write_type_shift g type) hty
      (fputs "_ : " (fputs ", " s))
    obtain ⟨t, ht, hto⟩ := write_function_type_parameters_rest g next hnext u
    refine ⟨t, ?_, ?_⟩
    · simp [write_function_type_parameters, hu, status.andThen, ht]
    · rw [hto, huo]
      simp only [function_parameter_t.types, List.map_cons, string_join_cons,
        fputs_out, String.append_assoc]

/-- The parameter loop of `write_function_type` writes `_ : <type>` for every
    parameter, joined by `, `. -/
theorem write_function_type_parameters_out (g : globals)
    (ps : function_parameter_t)
    (hp : ∀ T ∈ ps.types, returns (write_type g T) = true) (s : streams) :
    ∃ t, write_function_type_parameters g ps true s = .returned t
      ∧ t.out = s.out ++ ", ".intercalate
          (ps.types.map (fun T => "_ : " ++ text_of (write_type g T))) := by
  cases ps with
  | NULL =>
    exact ⟨s, by simp [write_function_type_parameters],
      by simp [function_parameter_t.types, String.intercalate]⟩
  | node type symbol next =>
    have hty : returns (write_type g type) = true :=
      hp type (by simp [function_parameter_t.types])
    have hnext : ∀ T ∈ next.types, returns (write_type g T) = true :=
      fun T hT => hp T (by simp [function_parameter_t.types, hT])
    obtain ⟨u, hu, huo⟩ := returned_of_returns _ (write_type_shift g type) hty
      (fputs "_ : " s)
    obtain ⟨t, ht, hto⟩ := write_function_type_parameters_rest g next hnext u
    refine ⟨t, ?_, ?_⟩
    · simp [write_function_type_parameters, hu, status.andThen, ht]
    · rw [hto, huo]
      simp only [function_parameter_t.types, List.map_cons, intercalate_cons,
        fputs_out, String.append_assoc]

/-- C12: a function type whose parameter types and result type can be
    rendered is written, as a nested type, as `(func(`, then `_ : <type>` for
    every parameter in order joined by `, ` (the symbol of a parameter is not
    looked at), then `) : `, the rendered result type and `)`; the result is
    shown also when it is the atomic void type, as `) : void)`. -/
theorem write_type_function_literal (g : globals) (a : Nat)
    (ps : function_parameter_t) (variadic : Bool) (result : type_t)
    (hp : ∀ T ∈ ps.types, returns (write_type g T) = true)
    (hr : returns (write_type g result) = true) (s : streams) :
    ∃ t, write_type g (.function a ps variadic result) s = .returned t
      ∧ t.out = s.out ++ "(func("
          ++ ", ".intercalate
              (ps.types.map (fun T => "_ : " ++ text_of (write_type g T)))
          ++ ") : " ++ text_of (write_type g result) ++ ")"
      ∧ (∀ x, result = .atomic x .ATOMIC_TYPE_VOID →
          t.out = s.out ++ "(func("
            ++ ", ".intercalate
                (ps.types.map (fun T => "_ : " ++ text_of (write_type g T)))
            ++ ") : void)") := by
  obtain ⟨u, hu, huo⟩ := write_function_type_parameters_out g ps hp
    (fputs "(func(" s)
  obtain ⟨v, hv, hvo⟩ := returned_of_returns _ (write_type_shift g result) hr
    (fputs ") : " u)
  have hout : (fputs ")" v).out = s.out ++ "(func("
      ++ ", ".intercalate
          (ps.types.map (fun T => "_ : " ++ text_of (write_type g T)))
      ++ ") : " ++ text_of (write_type g result) ++ ")" := by
    simp only [fputs_out, hvo, huo, String.append_assoc]
  refine ⟨fputs ")" v, ?_, hout, ?_⟩
  · simp only [write_type, write_function_type, hu, hv, status.andThen]
  · intro x hx
    subst hx
    rw [hout]
    have h1 : text_of (write_type g (.atomic x .ATOMIC_TYPE_VOID)) = "void" := rfl
    rw [h1]
    simp only [String.append_assoc]
    rfl

/-- The type of `void (*)(int a, Foo)` without its pointer: two parameters,
    the first with a symbol, and result void. -/
theorem write_type_function_literal_witness :
    (∀ T ∈ (function_parameter_t.node sample_int (some ⟨"a"⟩)
          (.node sample_struct none .NULL)).types,
        returns (write_type sample_globals T) = true)
      ∧ returns (write_type sample_globals (.atomic 2 .ATOMIC_TYPE_VOID)) = true
      ∧ write_type sample_globals
          (.function 21 (.node sample_int (some ⟨"a"⟩)
            (.node sample_struct none .NULL)) true (.atomic 2 .ATOMIC_TYPE_VOID))
          streams.empty
          = .returned ⟨"(func(_ : int, _ : Foo) : void)", ""⟩
      ∧ ∃ t, write_type sample_globals
            (.function 21 (.node sample_int (some ⟨"a"⟩)
              (.node sample_struct none .NULL)) true (.atomic 2 .ATOMIC_TYPE_VOID))
            streams.empty = .returned t
          ∧ t.out = "(func(_ : int, _ : Foo) : void)" := by
  have hp : ∀ T ∈ (function_parameter_t.node sample_int (some ⟨"a"⟩)
        (.node sample_struct none .NULL)).types,
      returns (write_type sample_globals T) = true := by
    intro T hT
    simp only [function_parameter_t.types, List.mem_cons, List.mem_nil_iff,
      or_false] at hT
    rcases hT with hT | hT <;> subst hT <;> rfl
  refine ⟨hp, rfl, rfl, ?_⟩
  obtain ⟨t, ht, hto, _⟩ := write_type_function_literal sample_globals 21
    (.node sample_int (some ⟨"a"⟩) (.node sample_struct none .NULL)) true
    (.atomic 2 .ATOMIC_TYPE_VOID) hp rfl streams.empty
  exact ⟨t, ht, by rw [hto]; rfl⟩

/-! ### C13: the variable region -/

theorem write_variable_returned_out (g : globals) (symbol : Option symbol_t)
    (type : type_t) (s t : streams)
    (h : write_variable g symbol type s = .returned t) :
    t.out = s.out ++ variable_line g symbol type := by
  cases symbol with
  | none => simp [write_variable] at h
  | some sym =>
    simp only [write_variable] at h
    obtain ⟨u, hu, hk⟩ := andThen_returned _ _ _ h
    simp only [status.returned.injEq] at hk
    subst hk
    have h2 := (returned_out_of_shift _ (write_type_shift g type) _ u hu).2
    simp only [variable_line, fputs_out, h2, String.append_assoc]

/-- C13: when the second loop of `write_fluffy_decls` returns, it has written
    exactly one line `var <name> : <rendered type>` for each declaration of
    the chain that is in the normal namespace, is neither a typedef nor an
    enum entry and has no function type, in chain order, and nothing for any
    other declaration; the line is a function of the name and the type, and
    the loop does the same whatever the union `init` of a declaration
    holds. -/
theorem write_fluffy_decls_variable_region (g : globals) (d : declaration_t)
    (s t : streams) (h : write_fluffy_decls_variables g d s = .returned t) :
    t.out = s.out
        ++ String.join ((d.chain.filter in_variable_region).map
            (fun e => variable_line g e.symbol e.type))
      ∧ (∀ symbol type sc ns init ctx next,
          in_variable_region (.node symbol type sc ns init ctx next) = true
            ↔ (ns = .NAMESPACE_NORMAL ∧ sc ≠ .STORAGE_CLASS_TYPEDEF
                ∧ sc ≠ .STORAGE_CLASS_ENUM_ENTRY ∧ type.is_function = false))
      ∧ (∀ symbol type sc ns init init2 ctx next u,
          write_fluffy_decls_variables g (.node symbol type sc ns init ctx next) u
            = write_fluffy_decls_variables g
                (.node symbol type sc ns init2 ctx next) u) := by
  refine ⟨?_, ?_, ?_⟩
  · induction d generalizing s with
    | NULL =>
      simp only [write_fluffy_decls_variables, status.returned.injEq] at h
      subst h
      simp [declaration_t.chain, String.join]
    | node symbol type sc ns init ctx next _ ih =>
      simp only [write_fluffy_decls_variables] at h
      split at h
      · rename_i hns
        rw [ih s h]
        simp [declaration_t.chain, in_variable_region, is_normal_object, hns]
      · rename_i hns
        split at h
        · rename_i hsc
          rw [ih s h]
          rcases hsc with hsc | hsc <;>
            simp [declaration_t.chain, in_variable_region, is_normal_object, hsc]
        · rename_i hsc
          split at h
          · rename_i hf
            rw [ih s h]
            simp [declaration_t.chain, in_variable_region, has_function_type, hf]
          · rename_i hf
            obtain ⟨u, hu, hk⟩ := andThen_returned _ _ _ h
            rw [ih u hk, write_variable_returned_out g symbol type s u hu]
            simp only [ne_eq, Decidable.not_not] at hns
            simp only [not_or] at hsc
            simp [declaration_t.chain, in_variable_region, is_normal_object,
              has_function_type, hns, hsc.1, hsc.2, hf, declaration_t.symbol,
              declaration_t.type, string_join_cons, String.append_assoc]
  · intro symbol type sc ns init ctx next
    simp [in_variable_region, is_normal_object, has_function_type, and_assoc]
  · intro symbol type sc ns init init2 ctx next u
    simp only [write_fluffy_decls_variables]

/-- The variable region of the sample unit is the line of `v`. -/
theorem write_fluffy_decls_variable_region_witness :
    write_fluffy_decls_variables sample_globals sample_Foo streams.empty
        = .returned ⟨"var v : Foo\n", ""⟩
      ∧ "var v : Foo\n" = ""
          ++ String.join ((sample_Foo.chain.filter in_variable_region).map
              (fun e => variable_line sample_globals e.symbol e.type)) :=
  ⟨rfl,
    (write_fluffy_decls_variable_region sample_globals sample_Foo streams.empty
      ⟨"var v : Foo\n", ""⟩ rfl).1⟩

/-! ### C14: the type region -/

/-- C14: when the first loop of `write_fluffy_decls` returns, it has written
    exactly one block for each typedef of the chain whose type is a struct, a
    union or an enum type, in chain order: the struct, union or enum block
    written for the symbol of the typedef; and a typedef of an atomic or of a
    pointer type is passed over by each of the three loops. -/
theorem write_fluffy_decls_type_region (g : globals) (d : declaration_t)
    (s t : streams) (h : write_fluffy_decls_types g d s = .returned t) :
    t.out = s.out
        ++ String.join ((d.chain.filter in_type_region).map (type_region_block g))
      ∧ (∀ symbol type sc ns init ctx next,
          in_type_region (.node symbol type sc ns init ctx next) = true
            ↔ (sc = .STORAGE_CLASS_TYPEDEF ∧ type.is_aggregate = true))
      ∧ (∀ symbol a declaration sc ns init ctx next,
          type_region_block g
              (.node symbol (.compound_struct a declaration) sc ns init ctx next)
            = text_of (write_struct g symbol declaration)
          ∧ type_region_block g
              (.node symbol (.compound_union a declaration) sc ns init ctx next)
            = text_of (write_union g symbol declaration)
          ∧ type_region_block g
              (.node symbol (.enum a declaration) sc ns init ctx next)
            = text_of (write_enum g symbol declaration))
      ∧ (∀ symbol a atype ns init ctx next u,
          write_fluffy_decls_types g
              (.node symbol (.atomic a atype) .STORAGE_CLASS_TYPEDEF ns init ctx next) u
            = write_fluffy_decls_types g next u
          ∧ write_fluffy_decls_variables g
              (.node symbol (.atomic a atype) .STORAGE_CLASS_TYPEDEF ns init ctx next) u
            = write_fluffy_decls_variables g next u
          ∧ write_fluffy_decls_functions g
              (.node symbol (.atomic a atype) .STORAGE_CLASS_TYPEDEF ns init ctx next) u
            = write_fluffy_decls_functions g next u)
      ∧ (∀ symbol a points_to ns init ctx next u,
          write_fluffy_decls_types g
              (.node symbol (.pointer a points_to) .STORAGE_CLASS_TYPEDEF ns init ctx
                next) u
            = write_fluffy_decls_types g next u
          ∧ write_fluffy_decls_variables g
              (.node symbol (.pointer a points_to) .STORAGE_CLASS_TYPEDEF ns init ctx
                next) u
            = write_fluffy_decls_variables g next u
          ∧ write_fluffy_decls_functions g
              (.node symbol (.pointer a points_to) .STORAGE_CLASS_TYPEDEF ns init ctx
                next) u
            = write_fluffy_decls_functions g next u) := by
  refine ⟨write_fluffy_decls_types_out g d s t h, ?_, ?_, ?_, ?_⟩
  · intro symbol type sc ns init ctx next
    cases type <;> cases sc <;> simp [in_type_region, type_t.is_aggregate]
  · intro symbol a declaration sc ns init ctx next
    exact ⟨rfl, rfl, rfl⟩
  · intro symbol a atype ns init ctx next u
    refine ⟨?_, ?_, ?_⟩
    · simp [write_fluffy_decls_types, status.andThen]
    · by_cases hns : ns = .NAMESPACE_NORMAL <;>
        simp [write_fluffy_decls_variables, hns]
    · by_cases hns : ns = .NAMESPACE_NORMAL <;>
        simp [write_fluffy_decls_functions, hns]
  · intro symbol a points_to ns init ctx next u
    refine ⟨?_, ?_, ?_⟩
    · simp [write_fluffy_decls_types, status.andThen]
    · by_cases hns : ns = .NAMESPACE_NORMAL <;>
        simp [write_fluffy_decls_variables, hns]
    · by_cases hns : ns = .NAMESPACE_NORMAL <;>
        simp [write_fluffy_decls_functions, hns]

/-- The type region of the sample unit is the block of `Foo`. -/
theorem write_fluffy_decls_type_region_witness :
    write_fluffy_decls_types sample_globals sample_Foo streams.empty
        = .returned ⟨"struct Foo:\n\tx : int\n\n", ""⟩
      ∧ "struct Foo:\n\tx : int\n\n" = ""
          ++ String.join ((sample_Foo.chain.filter in_type_region).map
              (type_region_block sample_globals)) :=
  ⟨rfl,
    (write_fluffy_decls_type_region sample_globals sample_Foo streams.empty
      ⟨"struct Foo:\n\tx : int\n\n", ""⟩ rfl).1⟩

/-! ### C15: invalid types -/

theorem andThen_panic (msg : String) (t : streams) (r : status)
    (k : streams → status) (h : r = .panic msg t) :
    r.andThen k = .panic msg t := by
  subst h; rfl

/-- A well-formed struct, union or enum type has its name written: both
    name writers return. -/
theorem aggregate_well_formed_returned (g : globals) (addr declaration : Nat)
    (h : aggregate_well_formed g addr declaration = true) (s : streams) :
    (∃ t, write_compound_type g addr declaration s = .returned t)
      ∧ (∃ t, write_enum_type g addr declaration s = .returned t) := by
  simp only [aggregate_well_formed, Bool.and_eq_true, Bool.not_eq_true',
    List.all_eq_true, Bool.or_eq_true] at h
  obtain ⟨hmem, hall⟩ := h
  cases hfind : g.global_context.declarations.chain.find? (is_typedef_of addr) with
  | none =>
    have hd : find_typedef g.global_context addr = .NULL := by
      simp [find_typedef, find_typedef_from_eq, hfind]
    cases hm : g.mem declaration with
    | NULL => rw [hm] at hmem; simp [declaration_t.is_null] at hmem
    | node symbol ty sc ns init ctx next =>
      cases symbol <;>
        simp [write_compound_type, write_enum_type, hd, hm]
  | some d =>
    have hd : find_typedef g.global_context addr = d := by
      simp [find_typedef, find_typedef_from_eq, hfind]
    have hin : d ∈ g.global_context.declarations.chain :=
      List.mem_of_find?_eq_some hfind
    have htd : is_typedef_of addr d = true := List.find?_some hfind
    have hsym := hall d hin
    rw [htd] at hsym
    cases d with
    | NULL => simp [is_typedef_of] at htd
    | node symbol ty sc ns init ctx next =>
      cases symbol with
      | none => simp [declaration_t.symbol] at hsym
      | some sym =>
        simp [write_compound_type, write_enum_type, hd, fputs_symbol_string]

mutual
theorem write_type_invalid_or_returned (g : globals) (T : type_t)
    (hT : T.in_scope g = true) (s : streams) :
    (T.reaches_invalid = true →
        ∃ t, write_type g T s = .panic "invalid type found" t)
      ∧ (T.reaches_invalid = false → ∃ t, write_type g T s = .returned t) := by
  cases T with
  | atomic a atype =>
    simp only [type_t.in_scope] at hT
    cases atype <;>
      first
        | (simp [atomic_type_type_t.is_listed] at hT; done)
        | simp [type_t.reaches_invalid, write_type, write_atomic_type,
            get_atomic_type_string]
  | pointer a pt =>
    simp only [type_t.in_scope] at hT
    obtain ⟨h1, h2⟩ := write_type_invalid_or_returned g pt hT s
    simp only [type_t.reaches_invalid, write_type, write_pointer_type]
    constructor
    · intro hr
      obtain ⟨t, ht⟩ := h1 hr
      exact ⟨t, andThen_panic _ _ _ _ ht⟩
    · intro hr
      obtain ⟨t, ht⟩ := h2 hr
      exact ⟨_, by rw [ht]; rfl⟩
  | compound_struct a d =>
    simp only [type_t.in_scope] at hT
    obtain ⟨t, ht⟩ := (aggregate_well_formed_returned g a d hT s).1
    simp [type_t.reaches_invalid, write_type, ht]
  | compound_union a d =>
    simp only [type_t.in_scope] at hT
    obtain ⟨t, ht⟩ := (aggregate_well_formed_returned g a d hT s).1
    simp [type_t.reaches_invalid, write_type, ht]
  | enum a d =>
    simp only [type_t.in_scope] at hT
    obtain ⟨t, ht⟩ := (aggregate_well_formed_returned g a d hT s).2
    simp [type_t.reaches_invalid, write_type, ht]
  | function a ps v r =>
    simp only [type_t.in_scope, Bool.and_eq_true] at hT
    obtain ⟨p1, p2⟩ := write_function_type_parameters_invalid_or_returned g ps
      hT.1 true (fputs "(func(" s)
    simp only [type_t.reaches_invalid, write_type, write_function_type,
      Bool.or_eq_true, Bool.or_eq_false_iff]
    constructor
    · intro hr
      by_cases hps : ps.reaches_invalid = true
      · obtain ⟨t, ht⟩ := p1 hps
        exact ⟨t, andThen_panic _ _ _ _ ht⟩
      · simp only [Bool.not_eq_true] at hps
        obtain ⟨u, hu⟩ := p2 hps
        have hrr : r.reaches_invalid = true := by
          rcases hr with hr | hr
          · rw [hr] at hps; simp at hps
          · exact hr
        obtain ⟨t, ht⟩ :=
          (write_type_invalid_or_returned g r hT.2 (fputs ") : " u)).1 hrr
        refine ⟨t, ?_⟩
        rw [hu]
        simp only [status.andThen]
        exact andThen_panic _ _ _ _ ht
    · intro hr
      obtain ⟨u, hu⟩ := p2 hr.1
      obtain ⟨t, ht⟩ :=
        (write_type_invalid_or_returned g r hT.2 (fputs ") : " u)).2 hr.2
      refine ⟨fputs ")" t, ?_⟩
      rw [hu]
      simp only [status.andThen, ht]
  | invalid a => simp [type_t.reaches_invalid, write_type]
  | other a k => simp [type_t.reaches_invalid, write_type]
theorem write_function_type_parameters_invalid_or_returned (g : globals)
    (ps : function_parameter_t) (hps : ps.in_scope g = true) (first : Bool)
    (s : streams) :
    (ps.reaches_invalid = true →
        ∃ t, write_function_type_parameters g ps first s
          = .panic "invalid type found" t)
      ∧ (ps.reaches_invalid = false →
        ∃ t, write_function_type_parameters g ps first s = .returned t) := by
  cases ps with
  | NULL =>
    simp [function_parameter_t.reaches_invalid, write_function_type_parameters]
  | node type sym next =>
    simp only [function_parameter_t.in_scope, Bool.and_eq_true] at hps
    obtain ⟨h1, h2⟩ := write_type_invalid_or_returned g type hps.1
      (fputs "_ : " (if ¬ first = true then fputs ", " s else s))
    simp only [function_parameter_t.reaches_invalid, write_function_type_parameters,
      Bool.or_eq_true, Bool.or_eq_false_iff]
    constructor
    · intro hr
      by_cases hty : type.reaches_invalid = true
      · obtain ⟨t, ht⟩ := h1 hty
        exact ⟨t, andThen_panic _ _ _ _ ht⟩
      · simp only [Bool.not_eq_true] at hty
        obtain ⟨u, hu⟩ := h2 hty
        have hn : next.reaches_invalid = true := by
          rcases hr with hr | hr
          · rw [hr] at hty; simp at hty
          · exact hr
        obtain ⟨t, ht⟩ :=
          (write_function_type_parameters_invalid_or_returned g next hps.2 false
            u).1 hn
        refine ⟨t, ?_⟩
        rw [hu]
        simp only [status.andThen]
        exact ht
    · intro hr
      obtain ⟨u, hu⟩ := h2 hr.1
      obtain ⟨t, ht⟩ :=
        (write_function_type_parameters_invalid_or_returned g next hps.2 false
          u).2 hr.2
      refine ⟨t, ?_⟩
      rw [hu]
      simp only [status.andThen]
      exact ht
end

/-- C15: `write_type` on an Invalid node ends in `panic`; for a type whose
    atomic nodes have listed kinds and whose struct, union and enum nodes are
    well formed in memory (the defining declaration is not NULL and every
    typedef of the node has a symbol), `write_type` fails to return exactly
    when an Invalid node is reached through pointee, parameter and result
    edges, it then ends in `panic("invalid type found")`, and otherwise it
    returns with its text written; the `panic` ends the callers too:
    `write_variable` and the variable loop of `write_fluffy_decls` end in the
    same `panic`. -/
theorem write_type_aborts_iff_invalid (g : globals) (T : type_t)
    (hT : T.in_scope g = true) (s : streams) :
    (∀ a, write_type g (.invalid a) s = .panic "invalid type found" s)
      ∧ ((¬ ∃ t, write_type g T s = .returned t) ↔ T.reaches_invalid = true)
      ∧ (T.reaches_invalid = true →
          ∃ t, write_type g T s = .panic "invalid type found" t)
      ∧ (T.reaches_invalid = false →
          ∃ t, write_type g T s = .returned t
            ∧ t.out = s.out ++ text_of (write_type g T))
      ∧ (T.reaches_invalid = true → ∀ name : symbol_t,
          ∃ t, write_variable g (some name) T s = .panic "invalid type found" t)
      ∧ (T.reaches_invalid = true → T.is_function = false →
          ∀ (name : symbol_t) k init ctx next,
          ∃ t, write_fluffy_decls_variables g
              (.node (some name) T (.other k) .NAMESPACE_NORMAL init ctx next) s
            = .panic "invalid type found" t) := by
  have hvar : T.reaches_invalid = true → ∀ (name : symbol_t) (u : streams),
      ∃ t, write_variable g (some name) T u = .panic "invalid type found" t := by
    intro hr name u
    obtain ⟨t, ht⟩ := (write_type_invalid_or_returned g T hT
      (fputs ("var " ++ name.string ++ " : ") u)).1 hr
    exact ⟨t, by simp only [write_variable]; exact andThen_panic _ _ _ _ ht⟩
  refine ⟨fun a => rfl, ?_, (write_type_invalid_or_returned g T hT s).1, ?_,
    fun hr name => hvar hr name s, ?_⟩
  · constructor
    · intro hno
      by_contra hr
      simp only [Bool.not_eq_true] at hr
      exact hno ((write_type_invalid_or_returned g T hT s).2 hr)
    · intro hr hret
      obtain ⟨t, ht⟩ := (write_type_invalid_or_returned g T hT s).1 hr
      obtain ⟨u, hu⟩ := hret
      rw [ht] at hu
      exact absurd hu (by simp)
  · intro hr
    obtain ⟨t, ht⟩ := (write_type_invalid_or_returned g T hT s).2 hr
    exact ⟨t, ht, (returned_out_of_shift _ (write_type_shift g T) s t ht).2⟩
  · intro hr hf name k init ctx next
    obtain ⟨t, ht⟩ := hvar hr name s
    refine ⟨t, ?_⟩
    simp only [write_fluffy_decls_variables, hf]
    simp [andThen_panic _ _ _ _ ht]

/-- A function type over `int`, the struct aliased `Foo` and `struct node`
    with an Invalid node under its result, and the same type with result
    `int`; the unit `<invalid> *w;` is written up to the beginning of the line
    of `w`. -/
theorem write_type_aborts_iff_invalid_witness :
    sample_invalid_function_type.in_scope sample_globals = true
      ∧ sample_valid_function_type.in_scope sample_globals = true
      ∧ write_type sample_globals sample_invalid_function_type streams.empty
          = .panic "invalid type found" ⟨"(func(_ : int, _ : Foo, _ : node) : ", ""⟩
      ∧ write_type sample_globals sample_valid_function_type streams.empty
          = .returned ⟨"(func(_ : int, _ : Foo, _ : node) : int)", ""⟩
      ∧ write_fluffy_decls sample_machine sample_invalid_unit streams.empty
          = .panic "invalid type found"
              ⟨"/* WARNING: Automatically generated file */\nvar w : ", ""⟩
      ∧ ((¬ ∃ t, write_type sample_globals sample_invalid_function_type
              streams.empty = .returned t)
          ↔ sample_invalid_function_type.reaches_invalid = true)
      ∧ ((¬ ∃ t, write_type sample_globals sample_valid_function_type
              streams.empty = .returned t)
          ↔ sample_valid_function_type.reaches_invalid = true) :=
  ⟨rfl, rfl, rfl, rfl, rfl,
    (write_type_aborts_iff_invalid sample_globals sample_invalid_function_type rfl
      streams.empty).2.1,
    (write_type_aborts_iff_invalid sample_globals sample_valid_function_type rfl
      streams.empty).2.1⟩

/-! ### C16: atomic types -/

/-- C16: `get_atomic_type_string` maps void to `void`, char and schar to
    `byte`, uchar to `unsigned byte`, short to `short`, ushort to
    `unsigned short`, int and long to `int`, uint and ulong to `unsigned int`,
    longlong to `long`, ulonglong to `unsigned long`, float to `float`, double
    and long double to `double`, bool to `bool`; so char/schar, int/long,
    uint/ulong and double/long double are mapped to the same text; every other
    kind is `panic("unsupported atomic type")`, also through
    `write_atomic_type` and `write_type`, and a listed kind is written by
    `write_type` as its text. -/
theorem get_atomic_type_string_table :
    get_atomic_type_string .ATOMIC_TYPE_VOID = .ok "void"
      ∧ get_atomic_type_string .ATOMIC_TYPE_CHAR = .ok "byte"
      ∧ get_atomic_type_string .ATOMIC_TYPE_SCHAR = .ok "byte"
      ∧ get_atomic_type_string .ATOMIC_TYPE_UCHAR = .ok "unsigned byte"
      ∧ get_atomic_type_string .ATOMIC_TYPE_SHORT = .ok "short"
      ∧ get_atomic_type_string .ATOMIC_TYPE_USHORT = .ok "unsigned short"
      ∧ get_atomic_type_string .ATOMIC_TYPE_INT = .ok "int"
      ∧ get_atomic_type_string .ATOMIC_TYPE_UINT = .ok "unsigned int"
      ∧ get_atomic_type_string .ATOMIC_TYPE_LONG = .ok "int"
      ∧ get_atomic_type_string .ATOMIC_TYPE_ULONG = .ok "unsigned int"
      ∧ get_atomic_type_string .ATOMIC_TYPE_LONGLONG = .ok "long"
      ∧ get_atomic_type_string .ATOMIC_TYPE_ULONGLONG = .ok "unsigned long"
      ∧ get_atomic_type_string .ATOMIC_TYPE_FLOAT = .ok "float"
      ∧ get_atomic_type_string .ATOMIC_TYPE_DOUBLE = .ok "double"
      ∧ get_atomic_type_string .ATOMIC_TYPE_LONG_DOUBLE = .ok "double"
      ∧ get_atomic_type_string .ATOMIC_TYPE_BOOL = .ok "bool"
      ∧ get_atomic_type_string .ATOMIC_TYPE_CHAR
          = get_atomic_type_string .ATOMIC_TYPE_SCHAR
      ∧ get_atomic_type_string .ATOMIC_TYPE_INT
          = get_atomic_type_string .ATOMIC_TYPE_LONG
      ∧ get_atomic_type_string .ATOMIC_TYPE_UINT
          = get_atomic_type_string .ATOMIC_TYPE_ULONG
      ∧ get_atomic_type_string .ATOMIC_TYPE_DOUBLE
          = get_atomic_type_string .ATOMIC_TYPE_LONG_DOUBLE
      ∧ (∀ n, get_atomic_type_string (.other n) = .error "unsupported atomic type")
      ∧ (∀ n s, write_atomic_type (.other n) s = .panic "unsupported atomic type" s)
      ∧ (∀ g a n s, write_type g (.atomic a (.other n)) s
          = .panic "unsupported atomic type" s)
      ∧ (∀ g a atype str s, get_atomic_type_string atype = .ok str →
          write_type g (.atomic a atype) s = .returned (fputs str s)) := by
  refine ⟨rfl, rfl, rfl, rfl, rfl, rfl, rfl, rfl, rfl, rfl, rfl, rfl, rfl, rfl,
    rfl, rfl, rfl, rfl, rfl, rfl, fun _ => rfl, fun _ _ => rfl,
    fun _ _ _ _ => rfl, ?_⟩
  intro g a atype str s h
  simp only [write_type, write_atomic_type, h]

/-- The kind uchar is written as `unsigned byte`. -/
theorem get_atomic_type_string_table_witness :
    get_atomic_type_string .ATOMIC_TYPE_UCHAR = .ok "unsigned byte"
      ∧ write_type sample_globals (.atomic 5 .ATOMIC_TYPE_UCHAR) streams.empty
          = .returned (fputs "unsigned byte" streams.empty) :=
  ⟨rfl,
    get_atomic_type_string_table.2.2.2.2.2.2.2.2.2.2.2.2.2.2.2.2.2.2.2.2.2.2.2
      sample_globals 5 .ATOMIC_TYPE_UCHAR "unsigned byte" streams.empty rfl⟩

/-! ### C17: function bodies and the diagnostic stream -/

theorem andThen_err (r : status) (k : streams → status) (e : String)
    (hr : r.final.err = e) (hk : ∀ u, u.err = e → (k u).final.err = e) :
    (r.andThen k).final.err = e := by
  cases r with
  | returned u => exact hk u hr
  | panic msg u => exact hr
  | fault u => exact hr

theorem write_compound_type_err (g : globals) (type declaration : Nat)
    (s : streams) :
    (write_compound_type g type declaration s).final.err = s.err := by
  unfold write_compound_type
  split
  · rename_i symbol _ _ _ _ _ _ _
    cases symbol <;> rfl
  · split <;> rfl

theorem write_enum_type_err (g : globals) (type declaration : Nat)
    (s : streams) :
    (write_enum_type g type declaration s).final.err = s.err := by
  unfold write_enum_type
  split
  · rename_i symbol _ _ _ _ _ _ _
    cases symbol <;> rfl
  · split <;> rfl

mutual
theorem write_type_err (g : globals) (T : type_t) (s : streams) :
    (write_type g T s).final.err = s.err := by
  cases T with
  | atomic a atype =>
    simp only [write_type, write_atomic_type]
    cases get_atomic_type_string atype <;> rfl
  | pointer a pt =>
    simp only [write_type, write_pointer_type]
    exact andThen_err _ _ _ (write_type_err g pt s) (fun u hu => hu)
  | compound_struct a d => exact write_compound_type_err g a d s
  | compound_union a d => exact write_compound_type_err g a d s
  | enum a d => exact write_enum_type_err g a d s
  | function a ps v r =>
    simp only [write_type, write_function_type]
    refine andThen_err _ _ _
      (write_function_type_parameters_err g ps true (fputs "(func(" s)) ?_
    intro u hu
    refine andThen_err _ _ _ ?_ (fun w hw => hw)
    rw [write_type_err g r (fputs ") : " u)]
    exact hu
  | invalid a => rfl
  | other a k => rfl
theorem write_function_type_parameters_err (g : globals)
    (ps : function_parameter_t) (first : Bool) (s : streams) :
    (write_function_type_parameters g ps first s).final.err = s.err := by
  cases ps with
  | NULL => rfl
  | node type sym next =>
    simp only [write_function_type_parameters]
    refine andThen_err _ _ _ ?_ ?_
    · rw [write_type_err g type]
      cases first <;> rfl
    · intro u hu
      rw [write_function_type_parameters_err g next false u]
      exact hu
end

theorem write_function_parameters_err (g : globals) (d : declaration_t)
    (first : Bool) (s : streams) :
    (write_function_parameters g d first s).final.err = s.err := by
  induction d generalizing s first with
  | NULL => rfl
  | node symbol type sc ns init ctx next _ ih =>
    simp only [write_function_parameters]
    refine andThen_err _ _ _ ?_ ?_
    · rw [write_type_err g type]
      cases symbol <;> cases first <;> rfl
    · intro u hu
      rw [ih false u]
      exact hu

theorem write_function_tail_err (g : globals) (function_type : type_t)
    (first : Bool) (s : streams) :
    (write_function_tail g function_type first s).final.err = s.err := by
  cases function_type with
  | function a ps variadic result_type =>
    simp only [write_function_tail]
    refine andThen_err _ _ _ ?_ (fun u hu => hu)
    split
    · cases variadic <;> cases first <;> rfl
    · rw [write_type_err g result_type]
      cases variadic <;> cases first <;> rfl
  | atomic a at_ => rfl
  | pointer a pt => rfl
  | compound_struct a d => rfl
  | compound_union a d => rfl
  | enum a d => rfl
  | invalid a => rfl
  | other a k => rfl

/-- What `write_function` does on a declaration with a body is what it
    does on the declaration without the body, started after the warning. -/
theorem write_function_with_body (g : globals) (f : symbol_t) (type : type_t)
    (init : init_t) (ctx : declaration_t) (s : streams) :
    write_function g (some f) type init ctx s
      = write_function g (some f) type .NULL ctx
          (if init.is_null then s else fputs_stderr (body_warning f) s) := by
  cases init <;> rfl

/-- Streams with the same `out` lead a call that writes after any prefix to
    outcomes of the same kind with the same `out`. -/
theorem same_out_of_shift (W : streams → status)
    (hW : ∀ p s, W (p.shift s) = (W s).shift p) (s u : streams)
    (h : s.out = u.out) :
    (W s).final.out = (W u).final.out
      ∧ ((∃ t, W s = .returned t) ↔ (∃ t, W u = .returned t)) := by
  have key : ∀ x : streams, W x = (W ⟨x.out, ""⟩).shift ⟨"", x.err⟩ := by
    intro x
    have hx := hW ⟨"", x.err⟩ ⟨x.out, ""⟩
    have hxs : (streams.shift ⟨"", x.err⟩ ⟨x.out, ""⟩) = x := by
      cases x
      simp [streams.shift]
    rw [hxs] at hx
    exact hx
  rw [key s, key u, h]
  cases W ⟨u.out, ""⟩ <;> simp [status.shift, status.final, streams.shift]

theorem write_function_without_body_err (g : globals) (f : symbol_t)
    (type : type_t) (ctx : declaration_t) (s : streams) :
    (write_function g (some f) type .NULL ctx s).final.err = s.err := by
  simp only [write_function]
  refine andThen_err _ _ _ ?_ ?_
  · rw [write_function_parameters_err]
    rfl
  · intro u hu
    rw [write_function_tail_err]
    exact hu

/-- C17: for a function declaration named `f`, what `write_function` writes
    to `out` with a body attached (the union `init` is not NULL) is what it
    writes without one, and it returns in the one case exactly when it
    returns in the other; `stderr` receives the warning naming `f` once when
    a body is attached and nothing when none is. -/
theorem write_function_body_dropped (g : globals) (f : symbol_t) (type : type_t)
    (init : init_t) (ctx : declaration_t) (s : streams) :
    (write_function g (some f) type init ctx s).final.out
        = (write_function g (some f) type .NULL ctx s).final.out
      ∧ ((∃ t, write_function g (some f) type init ctx s = .returned t)
          ↔ (∃ t, write_function g (some f) type .NULL ctx s = .returned t))
      ∧ (write_function g (some f) type init ctx s).final.err
          = s.err ++ (if init.is_null then "" else body_warning f)
      ∧ (∀ body, (write_function g (some f) type (.statement body) ctx s).final.err
          = s.err ++ "Warning: can't convert function bodies (at " ++ f.string
              ++ ")\n")
      ∧ (write_function g (some f) type .NULL ctx s).final.err = s.err := by
  have herr : ∀ i : init_t, (write_function g (some f) type i ctx s).final.err
      = s.err ++ (if i.is_null then "" else body_warning f) := by
    intro i
    rw [write_function_with_body, write_function_without_body_err]
    cases i <;> simp [init_t.is_null, fputs_stderr]
  have hsame := same_out_of_shift _ (write_function_shift g (some f) type .NULL ctx)
    (if init.is_null then s else fputs_stderr (body_warning f) s) s
    (by split <;> rfl)
  refine ⟨?_, ?_, herr init, ?_, ?_⟩
  · rw [write_function_with_body]
    exact hsame.1
  · rw [write_function_with_body]
    exact hsame.2
  · intro body
    rw [herr]
    simp only [init_t.is_null, Bool.false_eq_true, if_false, body_warning,
      String.append_assoc]
  · rw [herr]
    simp [init_t.is_null]

/-- The function `f` of the sample with a body attached: the same line on
    `out`, and one warning on `stderr`. -/
theorem write_function_body_dropped_witness :
    write_function sample_globals (some ⟨"f"⟩) sample_f_type (.statement 7)
        sample_parameter_a streams.empty
        = .returned ⟨"func extern f(a : int, ...) : int\n",
            "Warning: can't convert function bodies (at f)\n"⟩
      ∧ write_function sample_globals (some ⟨"f"⟩) sample_f_type .NULL
        sample_parameter_a streams.empty
        = .returned ⟨"func extern f(a : int, ...) : int\n", ""⟩
      ∧ (write_function sample_globals (some ⟨"f"⟩) sample_f_type (.statement 7)
          sample_parameter_a streams.empty).final.out
        = (write_function sample_globals (some ⟨"f"⟩) sample_f_type .NULL
          sample_parameter_a streams.empty).final.out :=
  ⟨rfl, rfl,
    (write_function_body_dropped sample_globals ⟨"f"⟩ sample_f_type (.statement 7)
      sample_parameter_a streams.empty).1⟩

/-! ### C18: the variadic flag in nested function types -/

/-- C18: `write_type` writes two function types that differ only in the
    variadic flag in the same way, so a pointer to a variadic function is
    written like a pointer to the function without the flag, with no `...`;
    `write_function`, for a declaration at top level, does write `...` for
    the flag. -/
theorem write_type_ignores_variadic :
    (∀ g a ps v1 v2 r s,
        write_type g (.function a ps v1 r) s = write_type g (.function a ps v2 r) s)
      ∧ (∀ g a b ps r s,
        write_type g (.pointer a (.function b ps true r)) s
          = write_type g (.pointer a (.function b ps false r)) s)
      ∧ write_type sample_globals (.pointer 22 sample_f_type) streams.empty
          = .returned ⟨"(func(_ : int) : int)*", ""⟩
      ∧ write_function sample_globals (some ⟨"f"⟩)
          (.function 20 (.node sample_int (some ⟨"a"⟩) .NULL) true sample_int)
          .NULL sample_parameter_a streams.empty
          = .returned ⟨"func extern f(a : int, ...) : int\n", ""⟩
      ∧ write_function sample_globals (some ⟨"f"⟩)
          (.function 20 (.node sample_int (some ⟨"a"⟩) .NULL) false sample_int)
          .NULL sample_parameter_a streams.empty
          = .returned ⟨"func extern f(a : int) : int\n", ""⟩ := by
  refine ⟨?_, ?_, rfl, rfl, rfl⟩
  · intro g a ps v1 v2 r s
    simp only [write_type]
  · intro g a b ps r s
    simp only [write_type]

/-! ### C19: members are not visited -/

theorem write_compound_type_congr_names (g g2 : globals)
    (hctx : g2.global_context = g.global_context)
    (hmem : ∀ a, (g2.mem a).is_null = (g.mem a).is_null
      ∧ (g2.mem a).symbol = (g.mem a).symbol)
    (type declaration : Nat) (s : streams) :
    write_compound_type g2 type declaration s
        = write_compound_type g type declaration s
      ∧ write_enum_type g2 type declaration s
        = write_enum_type g type declaration s := by
  obtain ⟨h1, h2⟩ := hmem declaration
  simp only [write_compound_type, write_enum_type, hctx]
  cases hf : find_typedef g.global_context type with
  | node symbol ty sc ns init ctx next => exact ⟨rfl, rfl⟩
  | NULL =>
    cases ha : g.mem declaration with
    | NULL =>
      cases hb : g2.mem declaration with
      | NULL => exact ⟨rfl, rfl⟩
      | node symbol ty sc ns init ctx next =>
        rw [ha, hb] at h1
        simp [declaration_t.is_null] at h1
    | node symbol ty sc ns init ctx next =>
      cases hb : g2.mem declaration with
      | NULL =>
        rw [ha, hb] at h1
        simp [declaration_t.is_null] at h1
      | node symbol2 ty2 sc2 ns2 init2 ctx2 next2 =>
        rw [ha, hb] at h2
        simp only [declaration_t.symbol] at h2
        subst h2
        cases symbol2 <;> exact ⟨rfl, rfl⟩

mutual
theorem write_type_congr_names (g g2 : globals)
    (hctx : g2.global_context = g.global_context)
    (hmem : ∀ a, (g2.mem a).is_null = (g.mem a).is_null
      ∧ (g2.mem a).symbol = (g.mem a).symbol)
    (T : type_t) : write_type g2 T = write_type g T := by
  cases T with
  | atomic a atype => simp only [write_type]
  | pointer a pt =>
    simp only [write_type]
    rw [write_type_congr_names g g2 hctx hmem pt]
  | compound_struct a d =>
    funext s
    simp only [write_type]
    exact (write_compound_type_congr_names g g2 hctx hmem a d s).1
  | compound_union a d =>
    funext s
    simp only [write_type]
    exact (write_compound_type_congr_names g g2 hctx hmem a d s).1
  | enum a d =>
    funext s
    simp only [write_type]
    exact (write_compound_type_congr_names g g2 hctx hmem a d s).2
  | function a ps v r =>
    simp only [write_type]
    rw [write_type_congr_names g g2 hctx hmem r,
      write_function_type_parameters_congr_names g g2 hctx hmem ps]
  | invalid a => simp only [write_type]
  | other a k => simp only [write_type]
theorem write_function_type_parameters_congr_names (g g2 : globals)
    (hctx : g2.global_context = g.global_context)
    (hmem : ∀ a, (g2.mem a).is_null = (g.mem a).is_null
      ∧ (g2.mem a).symbol = (g.mem a).symbol)
    (ps : function_parameter_t) :
    write_function_type_parameters g2 ps = write_function_type_parameters g ps := by
  cases ps with
  | NULL =>
    funext first s
    simp only [write_function_type_parameters]
  | node type sym next =>
    funext first s
    simp only [write_function_type_parameters]
    rw [write_type_congr_names g g2 hctx hmem type,
      write_function_type_parameters_congr_names g g2 hctx hmem next]
end

theorem forget_members_names (d : declaration_t) :
    (forget_members d).is_null = d.is_null
      ∧ (forget_members d).symbol = d.symbol := by
  cases d <;> exact ⟨rfl, rfl⟩

/-- C19: `write_type` reads of the defining declaration of a struct, union
    or enum type only whether it is there and its symbol: two memories that
    agree on these, under the same top-level declarations, give the same
    outcome for every type, whatever the members are; it descends only
    through pointee, parameter and result edges of the type tree, so it
    ends also when a member of an aggregate has a type that mentions the
    aggregate: with `struct node` tagged `node` and no typedef of it, the type
    pointer to `struct node` of its member is written as `node*`. -/
theorem write_type_never_visits_members (g g2 : globals)
    (hctx : g2.global_context = g.global_context)
    (hmem : ∀ a, (g2.mem a).is_null = (g.mem a).is_null
      ∧ (g2.mem a).symbol = (g.mem a).symbol)
    (T : type_t) (s : streams) :
    write_type g2 T s = write_type g T s
      ∧ (∀ a b d (tag : symbol_t) ty sc ns init members next,
          g.mem d = .node (some tag) ty sc ns init members next →
          g.global_context.declarations.chain.find? (is_typedef_of b) = none →
          write_type g (.pointer a (.compound_struct b d)) s
            = .returned (fputs "*" (fputs tag.string s)))
      ∧ write_type sample_globals (.pointer 14 sample_node_type) streams.empty
          = .returned ⟨"node*", ""⟩
      ∧ write_struct sample_globals (some ⟨"node"⟩) 400 streams.empty
          = .returned ⟨"struct node:\n\tnext : node*\n\n", ""⟩ := by
  refine ⟨by rw [write_type_congr_names g g2 hctx hmem T], ?_, rfl, rfl⟩
  intro a b d tag ty sc ns init members next hd hno
  have hf : find_typedef g.global_context b = .NULL := by
    simp [find_typedef, find_typedef_from_eq, hno]
  simp only [write_type, write_pointer_type, write_compound_type, hf, hd,
    status.andThen]
  rfl

/-- The sample memory with and without the members of its aggregates:
    `struct node *` is written as `node*` in both. -/
theorem write_type_never_visits_members_witness :
    sample_globals_no_members.global_context = sample_globals.global_context
      ∧ (∀ a, (sample_globals_no_members.mem a).is_null
            = (sample_globals.mem a).is_null
          ∧ (sample_globals_no_members.mem a).symbol = (sample_globals.mem a).symbol)
      ∧ write_type sample_globals_no_members (.pointer 14 sample_node_type)
          streams.empty
        = write_type sample_globals (.pointer 14 sample_node_type) streams.empty :=
  ⟨rfl, fun a => forget_members_names (sample_globals.mem a),
    (write_type_never_visits_members sample_globals sample_globals_no_members rfl
      (fun a => forget_members_names (sample_globals.mem a))
      (.pointer 14 sample_node_type) streams.empty).1⟩

/-! ### C20: blocks are written for typedefs only -/

/-- C20: the unit `struct S { int x; }; struct S v;`, in which `S` has a tag
    and no typedef, is written as the header line and the line `var v : S`,
    with no block `struct S:`; in general the first loop of
    `write_fluffy_decls` passes over every declaration whose storage class is
    not TYPEDEF, whatever its type, so a struct, union or enum named only by
    its tag has no block in the type region. -/
theorem blocks_only_for_typedefs :
    write_fluffy_decls sample_machine sample_tag_unit streams.empty
        = .returned
            ⟨"/* WARNING: Automatically generated file */\n" ++ "var v : S\n", ""⟩
      ∧ write_fluffy_decls_types
          { sample_machine with global_context := sample_tag_unit.context }
          sample_tag_unit.context.declarations streams.empty
        = .returned streams.empty
      ∧ (∀ g symbol type n ns init ctx next s,
          write_fluffy_decls_types g
              (.node symbol type (.other n) ns init ctx next) s
            = write_fluffy_decls_types g next s)
      ∧ (∀ g symbol type ns init ctx next s,
          write_fluffy_decls_types g
              (.node symbol type .STORAGE_CLASS_ENUM_ENTRY ns init ctx next) s
            = write_fluffy_decls_types g next s)
      ∧ (∀ symbol type n ns init ctx next,
          in_type_region (.node symbol type (.other n) ns init ctx next) = false)
      ∧ (∀ symbol type ns init ctx next,
          in_type_region
            (.node symbol type .STORAGE_CLASS_ENUM_ENTRY ns init ctx next) = false) := by
  refine ⟨rfl, rfl, ?_, ?_, ?_, ?_⟩
  · intro g symbol type n ns init ctx next s
    simp [write_fluffy_decls_types]
  · intro g symbol type ns init ctx next s
    simp [write_fluffy_decls_types]
  · intro symbol type n ns init ctx next
    cases type <;> rfl
  · intro symbol type ns init ctx next
    cases type <;> rfl

end Fluffy
